import Mathlib

/-!
# Congestion tax calculator: shallow embedding of `app/calculator`, `app/tax_rules`
and `app/vehicles`

The Go sources are embedded as executable Lean definitions.

* Go `int` is taken to be 64 bits wide and is modelled as `Int` with an explicit
  two's-complement wrap (`wrapInt`) at the additions the program performs
  (`totalFee += highestFee`, inside and after the loop).
* `time.Time` is modelled by the three things the program observes: the wall
  clock seconds since January 1, year 1 00:00:00 UTC (Go's `ext` field, an
  `int64`), the nanosecond within the second, and the offset (seconds east of
  UTC) that the value's `Location` has at that instant.  Values carry no
  monotonic clock reading (true of every value built by `time.Date` or decoded
  from JSON).
-/

namespace CongestionTax

/-! ## Machine integers -/

/-- Two's-complement wrap of a mathematical integer into the range of a 64-bit Go `int`. -/
def wrapInt (x : Int) : Int :=
  (x + 9223372036854775808) % 18446744073709551616 - 9223372036854775808

/-! ## The part of package `time` that the program uses -/

/-- Model of `time.Time` without monotonic reading. -/
structure Time where
  /-- Seconds since January 1, year 1 00:00:00 UTC (an `int64`). -/
  wallSec : Int
  /-- Nanoseconds within the second. -/
  nsec : Int
  /-- Offset of the Location at this instant, seconds east of UTC. -/
  offset : Int
  wallSec_range : -9223372036854775808 ≤ wallSec ∧ wallSec < 9223372036854775808
  nsec_range : 0 ≤ nsec ∧ nsec < 1000000000
deriving DecidableEq

/-- Nanoseconds since January 1, year 1 00:00:00 UTC: the instant a `Time` denotes. -/
def Time.nanos (t : Time) : Int :=
  t.wallSec * 1000000000 + t.nsec

/-- Method `t.Before(u)`: the instant `t` is strictly earlier than `u`. -/
def Time.Before (t u : Time) : Bool :=
  decide (t.nanos < u.nanos)

/-- Method `t.Sub(u)`: the duration `t - u` in nanoseconds, saturated to the `int64`
range of `time.Duration`. -/
def Time.Sub (t u : Time) : Int :=
  let d := t.nanos - u.nanos
  if d > 9223372036854775807 then 9223372036854775807
  else if d < -9223372036854775808 then -9223372036854775808
  else d

/-- The test `d.Minutes() <= 60` on a `time.Duration` of `d` nanoseconds.
`Minutes` returns `float64(d / Minute) + float64(d % Minute) / 6e10`; both
summands are exact, the quotient is below `1 - 1e-11` and the spacing of
`float64` near 60 is below `1e-14`, so the floating-point comparison holds
exactly when `d` is at most 3 600 000 000 000 ns. -/
def minutesAtMost60 (d : Int) : Bool :=
  decide (d ≤ 3600000000000)

/-- Local seconds since January 1, year 1 00:00:00 in the value's zone. -/
def Time.abs (t : Time) : Int :=
  t.wallSec + t.offset

/-- Method `t.Weekday()`, Sunday = 0 … Saturday = 6 (January 1, year 1 is a Monday). -/
def Time.Weekday (t : Time) : Int :=
  ((t.abs + 86400) % 604800) / 86400

/-- Method `t.Hour()`. -/
def Time.Hour (t : Time) : Int :=
  (t.abs % 86400) / 3600

/-- Method `t.Minute()`. -/
def Time.Minute (t : Time) : Int :=
  (t.abs % 3600) / 60

/-- Leap-year test of the proleptic Gregorian calendar. -/
def isLeap (year : Int) : Bool :=
  year % 4 == 0 && (year % 100 != 0 || year % 400 == 0)

/-- Year and zero-based day of the year of the day number `d` (days since
January 1, year 1), by 400-, 100-, 4- and 1-year cycles. -/
def yearDay (d : Int) : Int × Int :=
  let n400 := d / 146097
  let d1 := d % 146097
  let c := d1 / 36524
  let n100 := c - c / 4
  let d2 := d1 - 36524 * n100
  let n4 := d2 / 1461
  let d3 := d2 % 1461
  let k := d3 / 365
  let n1 := k - k / 4
  (400 * n400 + 100 * n100 + 4 * n4 + n1 + 1, d3 - 365 * n1)

/-- Days before the start of month `m + 1` in a non-leap year (`daysBefore[m]`). -/
def daysBefore (m : Int) : Int :=
  if m ≤ 0 then 0
  else if m = 1 then 31
  else if m = 2 then 59
  else if m = 3 then 90
  else if m = 4 then 120
  else if m = 5 then 151
  else if m = 6 then 181
  else if m = 7 then 212
  else if m = 8 then 243
  else if m = 9 then 273
  else if m = 10 then 304
  else if m = 11 then 334
  else 365

/-- Month (January = 1) and day of the month of the zero-based day `yday` of `year`. -/
def monthDay (year yday : Int) : Int × Int :=
  if isLeap year && yday == 59 then (2, 29)
  else
    let day := if isLeap year && yday > 59 then yday - 1 else yday
    let m := day / 31
    if day ≥ daysBefore (m + 1) then (m + 2, day - daysBefore (m + 1) + 1)
    else (m + 1, day - daysBefore m + 1)

/-- Method `t.Year()`. -/
def Time.Year (t : Time) : Int :=
  (yearDay (t.abs / 86400)).1

/-- Method `t.Month()`, January = 1. -/
def Time.Month (t : Time) : Int :=
  (monthDay (yearDay (t.abs / 86400)).1 (yearDay (t.abs / 86400)).2).1

/-- Method `t.Day()`, the day of the month. -/
def Time.Day (t : Time) : Int :=
  (monthDay (yearDay (t.abs / 86400)).1 (yearDay (t.abs / 86400)).2).2

/-- The location `time.UTC`, as an offset in seconds east of UTC. -/
def UTC : Int := 0

/-- Function `time.Date(year, month, day, hour, min, sec, nsec, loc)` for a
fixed-offset location and arguments already in their normal ranges
(month 1–12, day within the month, and so on). -/
def Date (year month day hour min sec nsec : Int) (loc : Int) : Time :=
  let y := year - 1
  let d := 365 * y + y / 4 - y / 100 + y / 400 + daysBefore (month - 1)
    + (if isLeap year && month ≥ 3 then 1 else 0) + (day - 1)
  Time.mk (wrapInt (d * 86400 + hour * 3600 + min * 60 + sec + nsec / 1000000000 - loc))
    (nsec % 1000000000) loc (by unfold wrapInt; omega) (by omega)

/-- The operator `/` of Go on signed integers: the quotient truncated toward zero. -/
def quoTrunc (a b : Int) : Int :=
  if a ≥ 0 then a / b else -((-a) / b)

/-- The operator `%` of Go on signed integers: the remainder with the sign of `a`. -/
def remTrunc (a b : Int) : Int :=
  if a ≥ 0 then a % b else -((-a) % b)

/-- Method `addSec`: the wall seconds after adding `d` seconds, pinned to the ends
of the `int64` range when the sum overflows. -/
def addSec (ext d : Int) : Int :=
  if -9223372036854775808 ≤ ext + d ∧ ext + d < 9223372036854775808 then ext + d
  else if d > 0 then 9223372036854775807
  else -9223372036854775807

/-- Method `t.Add(d)` for a duration of `d` nanoseconds, on a value in a
fixed-offset location. -/
def Time.Add (t : Time) (d : Int) : Time :=
  if h1 : t.nsec + remTrunc d 1000000000 ≥ 1000000000 then
    Time.mk (addSec t.wallSec (quoTrunc d 1000000000 + 1))
      (t.nsec + remTrunc d 1000000000 - 1000000000) t.offset
      (by unfold addSec; split_ifs <;> omega)
      (by have := t.nsec_range; unfold remTrunc at h1 ⊢; split_ifs at h1 ⊢ <;> omega)
  else if h2 : t.nsec + remTrunc d 1000000000 < 0 then
    Time.mk (addSec t.wallSec (quoTrunc d 1000000000 - 1))
      (t.nsec + remTrunc d 1000000000 + 1000000000) t.offset
      (by unfold addSec; split_ifs <;> omega)
      (by have := t.nsec_range; unfold remTrunc at h2 ⊢; split_ifs at h2 ⊢ <;> omega)
  else
    Time.mk (addSec t.wallSec (quoTrunc d 1000000000))
      (t.nsec + remTrunc d 1000000000) t.offset
      (by unfold addSec; split_ifs <;> omega)
      (by omega)

/-! ## Package `vehicles` -/

/-- The implementations of interface `vehicles.Vehicle`: the seven concrete kinds
and `GenericVehicle`. -/
inductive Vehicle where
  | Bus (LicensePlate : String)
  | Motorbike (LicensePlate : String) (Typ : Int)
  | Car (LicensePlate : String)
  | Military (LicensePlate : String)
  | Diplomat (LicensePlate : String)
  | Emergency (LicensePlate : String)
  | Foreign (LicensePlate : String)
  | GenericVehicle (LicensePlate : String) (Typ : String) (TaxExcluded : Bool)
      (Times : List Time)
deriving DecidableEq

/-- Method `IsTaxExcluded` of each implementation. -/
def Vehicle.IsTaxExcluded : Vehicle → Bool
  | Vehicle.Bus _ => true
  | Vehicle.Motorbike _ _ => true
  | Vehicle.Car _ => false
  | Vehicle.Military _ => true
  | Vehicle.Diplomat _ => true
  | Vehicle.Emergency _ => true
  | Vehicle.Foreign _ => true
  | Vehicle.GenericVehicle _ _ taxExcluded _ => taxExcluded

/-- Method `GetVehicleType` of each implementation. -/
def Vehicle.GetVehicleType : Vehicle → String
  | Vehicle.Bus _ => "Bus"
  | Vehicle.Motorbike _ _ => "Motorbike"
  | Vehicle.Car _ => "Car"
  | Vehicle.Military _ => "Military"
  | Vehicle.Diplomat _ => "Diplomat"
  | Vehicle.Emergency _ => "Emergency"
  | Vehicle.Foreign _ => "Foreign"
  | Vehicle.GenericVehicle _ typ _ _ => typ

/-- Method `IsValidLicensePlate` of each implementation: the plate is not empty. -/
def Vehicle.IsValidLicensePlate : Vehicle → Bool
  | Vehicle.Bus licensePlate => licensePlate != ""
  | Vehicle.Motorbike licensePlate _ => licensePlate != ""
  | Vehicle.Car licensePlate => licensePlate != ""
  | Vehicle.Military licensePlate => licensePlate != ""
  | Vehicle.Diplomat licensePlate => licensePlate != ""
  | Vehicle.Emergency licensePlate => licensePlate != ""
  | Vehicle.Foreign licensePlate => licensePlate != ""
  | Vehicle.GenericVehicle licensePlate _ _ _ => licensePlate != ""

/-- Function `GetVehicle`, returning the pair `(Vehicle, error)`; `none` is nil in
either component.  The switch on the type comes first, the test of the licence
second; a `Motorbike` is built with the zero value of its `Type` field. -/
def GetVehicle (vehicleType : String) (licenseInfo : String) :
    Option Vehicle × Option String :=
  let vehicle : Option Vehicle :=
    if vehicleType = "Car" then some (Vehicle.Car licenseInfo)
    else if vehicleType = "Bus" then some (Vehicle.Bus licenseInfo)
    else if vehicleType = "Motorbike" then some (Vehicle.Motorbike licenseInfo 0)
    else if vehicleType = "Military" then some (Vehicle.Military licenseInfo)
    else if vehicleType = "Diplomat" then some (Vehicle.Diplomat licenseInfo)
    else if vehicleType = "Emergency" then some (Vehicle.Emergency licenseInfo)
    else if vehicleType = "Foreign" then some (Vehicle.Foreign licenseInfo)
    else none
  match vehicle with
  | none => (none, some "unknown or missing vehicle type")
  | some w =>
    if licenseInfo = "" then (none, some "invalid license for specified vehicle")
    else (some w, none)

/-! ## Package `taxrules` -/

/-- Struct `taxrules.HourlyPrice`. -/
structure HourlyPrice where
  StartHour : Int
  EndHour : Int
  Rate : Int
deriving DecidableEq

/-- Struct `taxrules.TaxRule`. -/
structure TaxRule where
  HourlyPrices : List HourlyPrice
  TaxOnWeekend : Bool
  ExcludedMonths : List Int
  MaxTaxedFee : Int
  ExcludedDates : List Time
  ExcludedDays : List Int
  DefaultHourlyPrice : Int
deriving DecidableEq

/-! ## Package `calculator` -/

/-- Function `IsTollFreeVehicle`; `none` is the nil interface value. -/
def IsTollFreeVehicle (v : Option Vehicle) : Bool :=
  match v with
  | none => false
  | some w => w.IsTaxExcluded

/-- Function `IsTollFreeDate`. -/
def IsTollFreeDate (date : Time) : Bool :=
  let year := date.Year
  let month := date.Month
  let day := date.Day
  if date.Weekday == 6 || date.Weekday == 0 then true
  else if year == 2013 then
    if (month == 1 && day == 1) ||
        (month == 3 && (day == 28 || day == 29)) ||
        (month == 4 && (day == 1 || day == 30)) ||
        (month == 5 && (day == 1 || day == 8 || day == 9)) ||
        (month == 6 && (day == 5 || day == 6 || day == 21)) ||
        month == 7 ||
        (month == 11 && day == 1) ||
        (month == 12 && (day == 24 || day == 25 || day == 26 || day == 31)) then true
    else false
  else false

/-- Function `IsToolFreeDateWithCustomRules`.  In the Go condition `&&` binds
tighter than `||`. -/
def IsToolFreeDateWithCustomRules (date : Time) (taxRules : TaxRule) : Bool :=
  let year := date.Year
  let month := date.Month
  let day := date.Day
  if (!taxRules.TaxOnWeekend && date.Weekday == 6) || date.Weekday == 0 then true
  else if taxRules.ExcludedMonths.any (fun exMonth => exMonth == month) then true
  else if taxRules.ExcludedDays.any (fun exDay => exDay == day) then true
  else if taxRules.ExcludedDates.any
      (fun exDates => exDates.Year == year && exDates.Month == month && exDates.Day == day)
    then true
  else false

/-- Function `getTollFee`.  In the seventh condition `&&` binds tighter than `||`. -/
def getTollFee (t : Time) (v : Option Vehicle) : Int :=
  if IsTollFreeDate t || IsTollFreeVehicle v then 0
  else
    let hour := t.Hour
    let minute := t.Minute
    if hour == 6 && minute ≥ 0 && minute ≤ 29 then 8
    else if hour == 6 && minute ≥ 30 && minute ≤ 59 then 13
    else if hour == 7 && minute ≥ 0 && minute ≤ 59 then 18
    else if hour == 8 && minute ≥ 0 && minute ≤ 29 then 13
    else if hour ≥ 8 && hour ≤ 14 && minute ≥ 30 && minute ≤ 59 then 8
    else if hour == 15 && minute ≥ 0 && minute ≤ 29 then 13
    else if (hour == 15 && minute ≥ 0) || (hour == 16 && minute ≤ 59) then 18
    else if hour == 17 && minute ≥ 0 && minute ≤ 59 then 13
    else if hour == 18 && minute ≥ 0 && minute ≤ 29 then 8
    else 0

/-- The loop of `getTollCustomFee`: the rate of the first band containing `hour`. -/
def firstBandRate (hour : Int) : List HourlyPrice → Int
  | [] => 0
  | taxFeeRule :: rest =>
    if hour ≥ taxFeeRule.StartHour && hour ≤ taxFeeRule.EndHour then taxFeeRule.Rate
    else firstBandRate hour rest

/-- Function `getTollCustomFee`.  The vehicle parameter is not used by the body. -/
def getTollCustomFee (t : Time) (_v : Option Vehicle) (taxRules : TaxRule) : Int :=
  if IsTollFreeDate t || IsToolFreeDateWithCustomRules t taxRules then 0
  else firstBandRate t.Hour taxRules.HourlyPrices

/-- Insertion of a date before the first element that is not before it. -/
def insertDate (d : Time) : List Time → List Time
  | [] => [d]
  | e :: rest => if e.Before d then e :: insertDate d rest else d :: e :: rest

/-- The call `sort.Slice(dates, func(i, j) { dates[i].Before(dates[j]) })`:
the slice rearranged in ascending order of instants.  `sort.Slice` is not
stable; this model keeps equal instants in their input order, and
`GetTax_eq_aggregate` shows that the fee is the same for every ascending
arrangement of the input. -/
def sortDates : List Time → List Time
  | [] => []
  | d :: rest => insertDate d (sortDates rest)

/-- The local variables of the loop in `GetTax`. -/
structure LoopState where
  intervalStart : Time
  totalFee : Int
  highestFee : Int
deriving DecidableEq

/-- The fee of one crossing as computed at the top of the loop body of `GetTax`. -/
def nextFee (vehicle : Option Vehicle) (isCustom : Bool) (taxRule : TaxRule) (date : Time) :
    Int :=
  if isCustom then getTollCustomFee date vehicle taxRule else getTollFee date vehicle

/-- One iteration of the loop in `GetTax`. -/
def loopBody (vehicle : Option Vehicle) (isCustom : Bool) (taxRule : TaxRule)
    (st : LoopState) (date : Time) : LoopState :=
  let fee := nextFee vehicle isCustom taxRule date
  let diffInMinutesLE60 := minutesAtMost60 (date.Sub st.intervalStart)
  if diffInMinutesLE60 then
    if fee > st.highestFee then LoopState.mk st.intervalStart st.totalFee fee
    else st
  else
    LoopState.mk date (wrapInt (st.totalFee + st.highestFee)) fee

/-- The part of `GetTax` after the sort, run on the sorted slice: the loop,
the final addition and the cap at 60. -/
def aggregate (vehicle : Option Vehicle) (isCustom : Bool) (taxRule : TaxRule) :
    List Time → Int
  | [] => 0
  | first :: rest =>
    let st := (first :: rest).foldl (loopBody vehicle isCustom taxRule)
      (LoopState.mk first 0 0)
    let totalFee := wrapInt (st.totalFee + st.highestFee)
    if totalFee > 60 then 60 else totalFee

/-- Function `GetTax`: the returned fee. -/
def GetTax (vehicle : Option Vehicle) (dates : List Time) (isCustom : Bool)
    (taxRule : TaxRule) : Int :=
  if dates.length = 0 then 0
  else aggregate vehicle isCustom taxRule (sortDates dates)

/-- The contents of the caller's slice after `GetTax` has returned.  The slice
argument shares its backing array with the caller's slice, and `sort.Slice`
rearranges that array in place; nothing else in `GetTax` writes to it.  The
result does not depend on the vehicle, the mode or the rule set. -/
def datesAfterGetTax (dates : List Time) : List Time :=
  if dates.length = 0 then dates
  else sortDates dates

/-! ## Package `helpers`: the cache -/

/-- Struct `helpers.Cache`: the `map[string]string` as a list of key–value pairs
with at most one pair per key written by `Set`.  The mutex is not modelled: the
methods are described as they run one at a time. -/
structure Cache where
  data : List (String × String)
deriving DecidableEq

/-- Function `NewCache`: an empty map. -/
def NewCache : Cache :=
  Cache.mk []

/-- Method `Set`: `c.data[key] = serializedValue`; returns the cache afterwards. -/
def Cache.Set (c : Cache) (key : String) (serializedValue : String) : Cache :=
  Cache.mk ((key, serializedValue) :: c.data.filter (fun entry => entry.1 != key))

/-- Method `Get`: `data, exists := c.data[key]`, with the zero value `""` for a
missing key. -/
def Cache.Get (c : Cache) (key : String) : String × Bool :=
  match c.data.lookup key with
  | some data => (data, true)
  | none => ("", false)

/-! ## Package `helpers`: random dates -/

/-- The argument of `rand.Int63n` in `GenerateRandomDate`: `int64(delta.Seconds())`
for `delta := end.Sub(start)`, the time from January 1 to December 31 of the year.
`Seconds` returns `float64(d / Second) + float64(d % Second) / 1e9`, which for these
durations is below 2^53 and converts back to the truncated quotient. -/
def randomSecondsBound (year : Int) : Int :=
  let start := Date year 1 1 0 0 0 0 UTC
  let endTime := Date year 12 31 0 0 0 0 UTC
  let delta := endTime.Sub start
  quoTrunc delta 1000000000

/-- Function `GenerateRandomDate`, with the value drawn by `rand.Int63n` as the
argument `randomSeconds`; the generator can draw any integer from 0 up to, and not
including, `randomSecondsBound year`.  The multiplication by `time.Second` is an
`int64` multiplication. -/
def GenerateRandomDate (year : Int) (randomSeconds : Int) : Time :=
  let start := Date year 1 1 0 0 0 0 UTC
  let randomDuration := wrapInt (randomSeconds * 1000000000)
  start.Add randomDuration

/-! ## Reference windowing definition, following the specification

These definitions are not taken from the program: they state the windowing rule of
the specification, for comparison with `GetTax`. -/

/-- Specification: the timestamp `d` is at most 60 minutes after the anchor. -/
def specWithin (anchor d : Time) : Bool :=
  decide (d.nanos - anchor.nanos ≤ 3600000000000)

/-- Specification: the windows of an ascending list, formed greedily.  The first
window is anchored at the earliest timestamp and contains every timestamp at most
60 minutes after its anchor; the next windows are formed in the same way from the
timestamps not covered.  The first argument bounds the number of windows. -/
def specWindowsFuel : Nat → List Time → List (List Time)
  | 0, _ => []
  | _ + 1, [] => []
  | n + 1, anchor :: rest =>
    (anchor :: rest.filter (fun d => specWithin anchor d)) ::
      specWindowsFuel n (rest.filter (fun d => !specWithin anchor d))

/-- Specification: the windows of an ascending list; a list has at most as many
windows as timestamps. -/
def specWindows (sorted : List Time) : List (List Time) :=
  specWindowsFuel sorted.length sorted

/-- Specification: the maximum stand-alone fee in a window. -/
def specWindowMax (fee : Time → Int) : List Time → Int
  | [] => 0
  | anchor :: rest => rest.foldl (fun m d => max m (fee d)) (fee anchor)

/-- Specification: the sum over the windows of the maximum stand-alone fee in the
window, over the ascending-sorted timestamps. -/
def specSum (vehicle : Option Vehicle) (dates : List Time) (isCustom : Bool)
    (taxRule : TaxRule) : Int :=
  ((specWindows (sortDates dates)).map (specWindowMax (nextFee vehicle isCustom taxRule))).sum

/-- Specification: the total fee, `min(60, sum of the window maxima)`. -/
def specTotal (vehicle : Option Vehicle) (dates : List Time) (isCustom : Bool)
    (taxRule : TaxRule) : Int :=
  min 60 (specSum vehicle dates isCustom taxRule)

/-! ## Auxiliary notions used in the proofs -/

/-- What the loop of `GetTax` reads from its state: the instant of the window
anchor, the running total and the running maximum. -/
def LoopState.view (st : LoopState) : Int × Int × Int :=
  (st.intervalStart.nanos, st.totalFee, st.highestFee)

/-- Ascending order of instants: the postcondition of the sort. -/
def Ascending (l : List Time) : Prop :=
  l.Pairwise (fun a b => a.nanos ≤ b.nanos)

/-- Loop invariant when every crossing fee lies in `[0, B]`: the fees charged for
closed windows are bounded by the time elapsed between the first crossing and the
current anchor, at most `B` per 60 minutes. -/
def FeeInv (B : Int) (first : Time) (st : LoopState) : Prop :=
  0 ≤ st.highestFee ∧ st.highestFee ≤ B ∧ 0 ≤ st.totalFee ∧
  first.nanos ≤ st.intervalStart.nanos ∧
  st.totalFee * 3600000000000 ≤ B * (st.intervalStart.nanos - first.nanos)

/-- What the specification still adds to the total when the current window has
anchor `anchor` and running maximum `highest` and the timestamps of `l` remain: the
maximum of the current window and the maxima of the windows after it. -/
def specRest (fee : Time → Int) (anchor : Time) (highest : Int) (l : List Time) : Int :=
  (l.filter (fun d => specWithin anchor d)).foldl (fun m d => max m (fee d)) highest +
    ((specWindows (l.filter (fun d => !specWithin anchor d))).map (specWindowMax fee)).sum

/-! ## Clock fields -/

theorem Minute_range (t : Time) : 0 ≤ t.Minute ∧ t.Minute ≤ 59 := by
  unfold Time.Minute; omega

theorem Hour_range (t : Time) : 0 ≤ t.Hour ∧ t.Hour ≤ 23 := by
  unfold Time.Hour; omega

theorem Weekday_range (t : Time) : 0 ≤ t.Weekday ∧ t.Weekday ≤ 6 := by
  unfold Time.Weekday; omega

/-! ## The built-in fee table -/

/-- The conditions of `getTollFee` read as propositions, for a crossing that is
not exempt by date or vehicle. -/
theorem getTollFee_taxable (t : Time) (v : Option Vehicle) (hv : IsTollFreeVehicle v = false)
    (hd : IsTollFreeDate t = false) :
    getTollFee t v =
      if (t.Hour = 6 ∧ 0 ≤ t.Minute) ∧ t.Minute ≤ 29 then 8
      else if (t.Hour = 6 ∧ 30 ≤ t.Minute) ∧ t.Minute ≤ 59 then 13
      else if (t.Hour = 7 ∧ 0 ≤ t.Minute) ∧ t.Minute ≤ 59 then 18
      else if (t.Hour = 8 ∧ 0 ≤ t.Minute) ∧ t.Minute ≤ 29 then 13
      else if ((8 ≤ t.Hour ∧ t.Hour ≤ 14) ∧ 30 ≤ t.Minute) ∧ t.Minute ≤ 59 then 8
      else if (t.Hour = 15 ∧ 0 ≤ t.Minute) ∧ t.Minute ≤ 29 then 13
      else if (t.Hour = 15 ∧ 0 ≤ t.Minute) ∨ (t.Hour = 16 ∧ t.Minute ≤ 59) then 18
      else if (t.Hour = 17 ∧ 0 ≤ t.Minute) ∧ t.Minute ≤ 59 then 13
      else if (t.Hour = 18 ∧ 0 ≤ t.Minute) ∧ t.Minute ≤ 29 then 8
      else 0 := by
  simp only [getTollFee, hd, hv, Bool.or_self, Bool.false_eq_true, if_false, ge_iff_le,
    beq_iff_eq, Bool.and_eq_true, Bool.or_eq_true, decide_eq_true_eq]

/-- An exempt date or an exempt vehicle makes the stand-alone fee zero. -/
theorem getTollFee_exempt (t : Time) (v : Option Vehicle)
    (h : IsTollFreeDate t = true ∨ IsTollFreeVehicle v = true) : getTollFee t v = 0 := by
  rcases h with h | h <;> simp [getTollFee, h]

/-- Every stand-alone built-in fee lies between 0 and 18. -/
theorem getTollFee_bounds (t : Time) (v : Option Vehicle) :
    0 ≤ getTollFee t v ∧ getTollFee t v ≤ 18 := by
  by_cases hd : IsTollFreeDate t = true
  · rw [getTollFee_exempt t v (Or.inl hd)]; omega
  · by_cases hv : IsTollFreeVehicle v = true
    · rw [getTollFee_exempt t v (Or.inr hv)]; omega
    · rw [getTollFee_taxable t v (by simpa using hv) (by simpa using hd)]
      split_ifs <;> omega

/-- C7 (the code at the failing input): on Tuesday 2013-02-05, not a toll-free
date, a car crossing at 09:00, inside the band 08:30–14:59, is charged 0 by
`getTollFee`, while 09:30 is charged 8. -/
theorem getTollFee_midday_gap :
    IsTollFreeDate (Date 2013 2 5 9 0 0 0 UTC) = false ∧
    (Vehicle.Car "ABC123").IsTaxExcluded = false ∧
    (Date 2013 2 5 9 0 0 0 UTC).Hour = 9 ∧ (Date 2013 2 5 9 0 0 0 UTC).Minute = 0 ∧
    getTollFee (Date 2013 2 5 9 0 0 0 UTC) (some (Vehicle.Car "ABC123")) = 0 ∧
    getTollFee (Date 2013 2 5 9 30 0 0 UTC) (some (Vehicle.Car "ABC123")) = 8 := by
  decide

/-- C8: for a taxable vehicle on a date that is not toll-free, `getTollFee`
returns 18 when the clock time is between 15:30 and 16:59 inclusive, and 13
when it is between 15:00 and 15:29 inclusive. -/
theorem getTollFee_afternoon_peak (t : Time) (v : Vehicle) (hv : v.IsTaxExcluded = false)
    (hd : IsTollFreeDate t = false) :
    (15 * 60 + 30 ≤ 60 * t.Hour + t.Minute ∧ 60 * t.Hour + t.Minute ≤ 16 * 60 + 59 →
      getTollFee t (some v) = 18) ∧
    (15 * 60 + 0 ≤ 60 * t.Hour + t.Minute ∧ 60 * t.Hour + t.Minute ≤ 15 * 60 + 29 →
      getTollFee t (some v) = 13) := by
  have hm := Minute_range t
  have hv2 : IsTollFreeVehicle (some v) = false := hv
  rw [getTollFee_taxable t (some v) hv2 hd]
  constructor <;> intro h <;> simp (disch := omega) only [if_pos, if_neg]

/-- Witness for C8: a car at 16:00 and at 15:10 on Tuesday 2013-02-05. -/
theorem getTollFee_afternoon_peak_witness :
    getTollFee (Date 2013 2 5 16 0 0 0 UTC) (some (Vehicle.Car "ABC123")) = 18 ∧
    getTollFee (Date 2013 2 5 15 10 0 0 UTC) (some (Vehicle.Car "ABC123")) = 13 :=
  ⟨(getTollFee_afternoon_peak (Date 2013 2 5 16 0 0 0 UTC) (Vehicle.Car "ABC123")
      (by decide) (by decide)).1 (by decide),
   (getTollFee_afternoon_peak (Date 2013 2 5 15 10 0 0 UTC) (Vehicle.Car "ABC123")
      (by decide) (by decide)).2 (by decide)⟩

/-- C9: for a taxable vehicle on a date that is not toll-free, `getTollFee`
returns 8 for 06:00–06:29, 13 for 06:30–06:59, 18 for 07:00–07:59, 13 for
08:00–08:29, 13 for 17:00–17:59, 8 for 18:00–18:29, and 0 before 06:00 and
from 18:30 onward. -/
theorem getTollFee_remaining_rows (t : Time) (v : Vehicle) (hv : v.IsTaxExcluded = false)
    (hd : IsTollFreeDate t = false) :
    (6 * 60 + 0 ≤ 60 * t.Hour + t.Minute ∧ 60 * t.Hour + t.Minute ≤ 6 * 60 + 29 →
      getTollFee t (some v) = 8) ∧
    (6 * 60 + 30 ≤ 60 * t.Hour + t.Minute ∧ 60 * t.Hour + t.Minute ≤ 6 * 60 + 59 →
      getTollFee t (some v) = 13) ∧
    (7 * 60 + 0 ≤ 60 * t.Hour + t.Minute ∧ 60 * t.Hour + t.Minute ≤ 7 * 60 + 59 →
      getTollFee t (some v) = 18) ∧
    (8 * 60 + 0 ≤ 60 * t.Hour + t.Minute ∧ 60 * t.Hour + t.Minute ≤ 8 * 60 + 29 →
      getTollFee t (some v) = 13) ∧
    (17 * 60 + 0 ≤ 60 * t.Hour + t.Minute ∧ 60 * t.Hour + t.Minute ≤ 17 * 60 + 59 →
      getTollFee t (some v) = 13) ∧
    (18 * 60 + 0 ≤ 60 * t.Hour + t.Minute ∧ 60 * t.Hour + t.Minute ≤ 18 * 60 + 29 →
      getTollFee t (some v) = 8) ∧
    (60 * t.Hour + t.Minute < 6 * 60 + 0 → getTollFee t (some v) = 0) ∧
    (18 * 60 + 30 ≤ 60 * t.Hour + t.Minute → getTollFee t (some v) = 0) := by
  have hm := Minute_range t
  have hv2 : IsTollFreeVehicle (some v) = false := hv
  rw [getTollFee_taxable t (some v) hv2 hd]
  refine ⟨?_, ?_, ?_, ?_, ?_, ?_, ?_, ?_⟩ <;> intro h <;>
    simp (disch := omega) only [if_pos, if_neg]

/-- Witness for C9: a car on Tuesday 2013-02-05 at 06:10, 06:45, 07:30, 08:15,
17:20, 18:05, 05:59 and 18:30. -/
theorem getTollFee_remaining_rows_witness :
    getTollFee (Date 2013 2 5 6 10 0 0 UTC) (some (Vehicle.Car "ABC123")) = 8 ∧
    getTollFee (Date 2013 2 5 6 45 0 0 UTC) (some (Vehicle.Car "ABC123")) = 13 ∧
    getTollFee (Date 2013 2 5 7 30 0 0 UTC) (some (Vehicle.Car "ABC123")) = 18 ∧
    getTollFee (Date 2013 2 5 8 15 0 0 UTC) (some (Vehicle.Car "ABC123")) = 13 ∧
    getTollFee (Date 2013 2 5 17 20 0 0 UTC) (some (Vehicle.Car "ABC123")) = 13 ∧
    getTollFee (Date 2013 2 5 18 5 0 0 UTC) (some (Vehicle.Car "ABC123")) = 8 ∧
    getTollFee (Date 2013 2 5 5 59 0 0 UTC) (some (Vehicle.Car "ABC123")) = 0 ∧
    getTollFee (Date 2013 2 5 18 30 0 0 UTC) (some (Vehicle.Car "ABC123")) = 0 :=
  ⟨(getTollFee_remaining_rows (Date 2013 2 5 6 10 0 0 UTC) (Vehicle.Car "ABC123")
      (by decide) (by decide)).1 (by decide),
   (getTollFee_remaining_rows (Date 2013 2 5 6 45 0 0 UTC) (Vehicle.Car "ABC123")
      (by decide) (by decide)).2.1 (by decide),
   (getTollFee_remaining_rows (Date 2013 2 5 7 30 0 0 UTC) (Vehicle.Car "ABC123")
      (by decide) (by decide)).2.2.1 (by decide),
   (getTollFee_remaining_rows (Date 2013 2 5 8 15 0 0 UTC) (Vehicle.Car "ABC123")
      (by decide) (by decide)).2.2.2.1 (by decide),
   (getTollFee_remaining_rows (Date 2013 2 5 17 20 0 0 UTC) (Vehicle.Car "ABC123")
      (by decide) (by decide)).2.2.2.2.1 (by decide),
   (getTollFee_remaining_rows (Date 2013 2 5 18 5 0 0 UTC) (Vehicle.Car "ABC123")
      (by decide) (by decide)).2.2.2.2.2.1 (by decide),
   (getTollFee_remaining_rows (Date 2013 2 5 5 59 0 0 UTC) (Vehicle.Car "ABC123")
      (by decide) (by decide)).2.2.2.2.2.2.1 (by decide),
   (getTollFee_remaining_rows (Date 2013 2 5 18 30 0 0 UTC) (Vehicle.Car "ABC123")
      (by decide) (by decide)).2.2.2.2.2.2.2 (by decide)⟩

/-! ## The loop state -/

theorem Sub_congr_left {a b : Time} (u : Time) (h : a.nanos = b.nanos) : a.Sub u = b.Sub u := by
  simp only [Time.Sub, h]

theorem Sub_congr_right {a b : Time} (u : Time) (h : a.nanos = b.nanos) : u.Sub a = u.Sub b := by
  simp only [Time.Sub, h]

theorem loopBody_view_congr (v : Option Vehicle) (c : Bool) (r : TaxRule)
    (st st' : LoopState) (d : Time) (h : st.view = st'.view) :
    (loopBody v c r st d).view = (loopBody v c r st' d).view := by
  obtain ⟨s, t, m⟩ := st
  obtain ⟨s', t', m'⟩ := st'
  simp only [LoopState.view, Prod.mk.injEq] at h
  obtain ⟨h1, h2, h3⟩ := h
  subst h2 h3
  simp only [loopBody, Sub_congr_right d h1]
  split_ifs <;> simp [LoopState.view, h1]

theorem foldl_view_congr (v : Option Vehicle) (c : Bool) (r : TaxRule) (l : List Time) :
    ∀ st st' : LoopState, st.view = st'.view →
      (l.foldl (loopBody v c r) st).view = (l.foldl (loopBody v c r) st').view := by
  induction l with
  | nil => intro st st' h; simpa using h
  | cons d l ih =>
    intro st st' h
    simp only [List.foldl_cons]
    exact ih _ _ (loopBody_view_congr v c r st st' d h)

theorem loopBody_swap (v : Option Vehicle) (c : Bool) (r : TaxRule)
    (st : LoopState) (a b : Time) (h : a.nanos = b.nanos) :
    (loopBody v c r (loopBody v c r st a) b).view =
      (loopBody v c r (loopBody v c r st b) a).view := by
  obtain ⟨s, t, m⟩ := st
  have hba : minutesAtMost60 (b.Sub a) = true := by
    simp [minutesAtMost60, Time.Sub, h]
  have hab : minutesAtMost60 (a.Sub b) = true := by
    simp [minutesAtMost60, Time.Sub, h]
  have hs : b.Sub s = a.Sub s := Sub_congr_left s h.symm
  simp only [loopBody, hs]
  by_cases hc : minutesAtMost60 (a.Sub s) = true
  · simp only [hc, if_true]
    split_ifs <;> simp_all [LoopState.view] <;> omega
  · simp only [hc]
    split_ifs <;> simp_all [LoopState.view] <;> omega

/-! ## The sort -/

theorem insertDate_perm (d : Time) (l : List Time) : (insertDate d l).Perm (d :: l) := by
  induction l with
  | nil => simp [insertDate]
  | cons e rest ih =>
    simp only [insertDate]
    split_ifs
    · exact (List.Perm.cons e ih).trans (List.Perm.swap d e rest)
    · exact List.Perm.refl _

theorem sortDates_perm (l : List Time) : (sortDates l).Perm l := by
  induction l with
  | nil => simp [sortDates]
  | cons d rest ih =>
    simp only [sortDates]
    exact (insertDate_perm d _).trans (List.Perm.cons d ih)

theorem insertDate_ascending (d : Time) (l : List Time) (h : Ascending l) :
    Ascending (insertDate d l) := by
  induction l with
  | nil => simp [insertDate, Ascending]
  | cons e rest ih =>
    unfold Ascending at h ih ⊢
    rw [List.pairwise_cons] at h
    simp only [insertDate]
    split_ifs with hb
    · rw [List.pairwise_cons]
      refine ⟨?_, ih h.2⟩
      intro x hx
      have hx2 := (List.Perm.mem_iff (insertDate_perm d rest)).1 hx
      simp only [Time.Before, decide_eq_true_eq] at hb
      rw [List.mem_cons] at hx2
      rcases hx2 with rfl | hx2
      · omega
      · exact h.1 x hx2
    · simp only [Time.Before, decide_eq_true_eq, not_lt] at hb
      rw [List.pairwise_cons]
      refine ⟨?_, List.pairwise_cons.2 h⟩
      intro x hx
      rw [List.mem_cons] at hx
      rcases hx with rfl | hx
      · exact hb
      · exact le_trans hb (h.1 x hx)

theorem sortDates_ascending (l : List Time) : Ascending (sortDates l) := by
  induction l with
  | nil => simp [sortDates, Ascending]
  | cons d rest ih => exact insertDate_ascending d _ ih

/-! ## Order-independence -/

theorem foldl_move_front (v : Option Vehicle) (c : Bool) (r : TaxRule) (a : Time) :
    ∀ (l : List Time) (st : LoopState), a ∈ l → (∀ x ∈ l, a.nanos ≤ x.nanos) → Ascending l →
      (l.foldl (loopBody v c r) st).view =
        ((a :: l.erase a).foldl (loopBody v c r) st).view := by
  intro l
  induction l with
  | nil => intro st ha; exact absurd ha (List.not_mem_nil a)
  | cons b t ih =>
    intro st ha hmin hasc
    by_cases hba : b = a
    · subst hba; simp
    · have hat : a ∈ t := by
        rw [List.mem_cons] at ha
        rcases ha with ha | ha
        · exact absurd ha.symm hba
        · exact ha
      unfold Ascending at hasc
      rw [List.pairwise_cons] at hasc
      have hnan : a.nanos = b.nanos :=
        le_antisymm (hmin b (List.mem_cons_self b t)) (hasc.1 a hat)
      have hminT : ∀ x ∈ t, a.nanos ≤ x.nanos := fun x hx => hmin x (List.mem_cons_of_mem b hx)
      have e1 := ih (loopBody v c r st b) hat hminT hasc.2
      have e2 := foldl_view_congr v c r (t.erase a) _ _ (loopBody_swap v c r st b a hnan.symm)
      have hne : (b == a) = false := by simpa using hba
      simp only [List.foldl_cons, List.erase_cons, hne] at e1 e2 ⊢
      simp only [Bool.false_eq_true, if_false, List.foldl_cons]
      exact e1.trans e2

theorem foldl_ascending_perm (v : Option Vehicle) (c : Bool) (r : TaxRule) :
    ∀ (s s' : List Time) (st : LoopState), Ascending s → Ascending s' → s.Perm s' →
      (s.foldl (loopBody v c r) st).view = (s'.foldl (loopBody v c r) st).view := by
  intro s
  induction s with
  | nil =>
    intro s' st _ _ hp
    rw [List.nil_perm.1 hp]
  | cons a t ih =>
    intro s' st hs hs' hp
    have ha : a ∈ s' := hp.subset (List.mem_cons_self a t)
    have hs1 := hs
    unfold Ascending at hs1
    rw [List.pairwise_cons] at hs1
    have hmin : ∀ x ∈ s', a.nanos ≤ x.nanos := by
      intro x hx
      have hx2 := hp.symm.subset hx
      rw [List.mem_cons] at hx2
      rcases hx2 with rfl | hx2
      · exact le_refl _
      · exact hs1.1 x hx2
    rw [foldl_move_front v c r a s' st ha hmin hs']
    simp only [List.foldl_cons]
    have hp2 : t.Perm (s'.erase a) := by
      have := hp.erase a
      simpa using this
    have hs2 : Ascending (s'.erase a) := List.Pairwise.sublist (List.erase_sublist a s') hs'
    exact ih (s'.erase a) _ hs1.2 hs2 hp2

/-- The fee computed after the sort is the same for every ascending arrangement
of the same timestamps. -/
theorem aggregate_sorted_perm (v : Option Vehicle) (c : Bool) (r : TaxRule)
    (s s' : List Time) (hs : Ascending s) (hs' : Ascending s') (hp : s.Perm s') :
    aggregate v c r s = aggregate v c r s' := by
  cases s with
  | nil => rw [List.nil_perm.1 hp]
  | cons a t =>
    cases s' with
    | nil => exact absurd hp.symm (by simp)
    | cons b t' =>
      have hab : a.nanos = b.nanos := by
        have h1 := hs
        have h2 := hs'
        unfold Ascending at h1 h2
        rw [List.pairwise_cons] at h1 h2
        have hb : b ∈ a :: t := hp.symm.subset (List.mem_cons_self b t')
        have ha : a ∈ b :: t' := hp.subset (List.mem_cons_self a t)
        rw [List.mem_cons] at ha hb
        apply le_antisymm
        · rcases hb with rfl | hb
          · exact le_refl _
          · exact h1.1 b hb
        · rcases ha with rfl | ha
          · exact le_refl _
          · exact h2.1 a ha
      have e1 := foldl_ascending_perm v c r (a :: t) (b :: t') (LoopState.mk a 0 0) hs hs' hp
      have e2 := foldl_view_congr v c r (b :: t') (LoopState.mk a 0 0) (LoopState.mk b 0 0)
        (by simp [LoopState.view, hab])
      have e3 := e1.trans e2
      simp only [LoopState.view, Prod.mk.injEq] at e3
      simp only [aggregate, e3.2.1, e3.2.2]

/-- The model of `GetTax` agrees with the loop run on any ascending arrangement of the
input, so the order `sort.Slice` gives to equal instants does not affect the fee. -/
theorem GetTax_eq_aggregate (v : Option Vehicle) (c : Bool) (r : TaxRule)
    (dates s : List Time) (hs : Ascending s) (hp : s.Perm dates) :
    GetTax v dates c r = aggregate v c r s := by
  unfold GetTax
  split_ifs with h
  · rw [List.length_eq_zero] at h
    subst h
    rw [List.perm_nil.1 hp]
    rfl
  · exact aggregate_sorted_perm v c r _ _ (sortDates_ascending dates) hs
      ((sortDates_perm dates).trans hp.symm)

/-- C1: `GetTax` returns the same total on every permutation of the timestamp list,
for every vehicle, mode and rule set. -/
theorem GetTax_perm (vehicle : Option Vehicle) (isCustom : Bool) (taxRule : TaxRule)
    (dates dates' : List Time) (h : dates'.Perm dates) :
    GetTax vehicle dates' isCustom taxRule = GetTax vehicle dates isCustom taxRule := by
  rw [GetTax_eq_aggregate vehicle isCustom taxRule dates (sortDates dates')
    (sortDates_ascending dates') ((sortDates_perm dates').trans h)]
  exact GetTax_eq_aggregate vehicle isCustom taxRule dates' (sortDates dates')
    (sortDates_ascending dates') (sortDates_perm dates')

/-- Witness for C1: two crossings of a car on 2013-02-05, in either order. -/
theorem GetTax_perm_witness :
    [Date 2013 2 5 7 1 0 0 UTC, Date 2013 2 5 6 0 0 0 UTC].Perm
      [Date 2013 2 5 6 0 0 0 UTC, Date 2013 2 5 7 1 0 0 UTC] ∧
    GetTax (some (Vehicle.Car "ABC123"))
        [Date 2013 2 5 7 1 0 0 UTC, Date 2013 2 5 6 0 0 0 UTC] false
        (TaxRule.mk [] false [] 0 [] [] 0) =
      GetTax (some (Vehicle.Car "ABC123"))
        [Date 2013 2 5 6 0 0 0 UTC, Date 2013 2 5 7 1 0 0 UTC] false
        (TaxRule.mk [] false [] 0 [] [] 0) :=
  ⟨List.Perm.swap _ _ _, GetTax_perm _ _ _ _ _ (List.Perm.swap _ _ _)⟩

/-! ## Bounds on the total -/

theorem nanos_range (t : Time) :
    -9223372036854775808000000000 ≤ t.nanos ∧ t.nanos < 9223372036854775808000000000 := by
  have h1 := t.wallSec_range
  have h2 := t.nsec_range
  unfold Time.nanos
  omega

theorem wrapInt_of_range (x : Int) (h0 : -9223372036854775808 ≤ x)
    (h1 : x < 9223372036854775808) : wrapInt x = x := by
  unfold wrapInt; omega

/-- Opening a new window means the crossing is more than 60 minutes after the anchor. -/
theorem not_minutesAtMost60_Sub (d s : Time) (h : ¬ minutesAtMost60 (d.Sub s) = true) :
    3600000000000 < d.nanos - s.nanos := by
  simp only [minutesAtMost60, Time.Sub, decide_eq_true_eq] at h
  split_ifs at h <;> omega

theorem minutesAtMost60_Sub (d s : Time) (h : minutesAtMost60 (d.Sub s) = true) :
    d.nanos - s.nanos ≤ 3600000000000 := by
  simp only [minutesAtMost60, Time.Sub, decide_eq_true_eq] at h
  split_ifs at h <;> omega

theorem FeeInv_no_overflow (B : Int) (hB : B ≤ 1799) (first : Time) (st : LoopState)
    (h : FeeInv B first st) :
    0 ≤ st.totalFee + st.highestFee ∧ st.totalFee + st.highestFee < 9223372036854775808 := by
  obtain ⟨h1, h2, h3, h4, h5⟩ := h
  have hf := nanos_range first
  have hs := nanos_range st.intervalStart
  have hmul : B * (st.intervalStart.nanos - first.nanos)
      ≤ 1799 * (st.intervalStart.nanos - first.nanos) :=
    Int.mul_le_mul_of_nonneg_right hB (by omega)
  omega

theorem loopBody_FeeInv (v : Option Vehicle) (c : Bool) (r : TaxRule) (B : Int)
    (hB : B ≤ 1799) (hfee : ∀ d, 0 ≤ nextFee v c r d ∧ nextFee v c r d ≤ B)
    (first : Time) (st : LoopState) (d : Time) (h : FeeInv B first st) :
    FeeInv B first (loopBody v c r st d) := by
  have hov := FeeInv_no_overflow B hB first st h
  obtain ⟨h1, h2, h3, h4, h5⟩ := h
  have hd := hfee d
  unfold loopBody
  simp only
  split_ifs with hw hgt
  · exact ⟨hd.1, hd.2, h3, h4, h5⟩
  · exact ⟨h1, h2, h3, h4, h5⟩
  · have hgap := not_minutesAtMost60_Sub d st.intervalStart hw
    have hB0 : 0 ≤ B := le_trans h1 h2
    have hmul : B * 3600000000000 ≤ B * (d.nanos - st.intervalStart.nanos) :=
      Int.mul_le_mul_of_nonneg_left (by omega) hB0
    have hsplit : B * (d.nanos - first.nanos) =
        B * (st.intervalStart.nanos - first.nanos) + B * (d.nanos - st.intervalStart.nanos) := by
      ring
    refine ⟨hd.1, hd.2, ?_, ?_, ?_⟩
    · show 0 ≤ wrapInt (st.totalFee + st.highestFee)
      rw [wrapInt_of_range _ (by omega) hov.2]; exact hov.1
    · show first.nanos ≤ d.nanos
      omega
    · show wrapInt (st.totalFee + st.highestFee) * 3600000000000 ≤ B * (d.nanos - first.nanos)
      rw [wrapInt_of_range _ (by omega) hov.2, hsplit]
      omega

theorem foldl_FeeInv (v : Option Vehicle) (c : Bool) (r : TaxRule) (B : Int)
    (hB : B ≤ 1799) (hfee : ∀ d, 0 ≤ nextFee v c r d ∧ nextFee v c r d ≤ B)
    (first : Time) (l : List Time) :
    ∀ st, FeeInv B first st → FeeInv B first (l.foldl (loopBody v c r) st) := by
  induction l with
  | nil => intro st h; exact h
  | cons d l ih =>
    intro st h
    exact ih _ (loopBody_FeeInv v c r B hB hfee first st d h)

/-- The returned total never exceeds the cap of 60, whatever the fees are. -/
theorem aggregate_le_60 (v : Option Vehicle) (c : Bool) (r : TaxRule) (s : List Time) :
    aggregate v c r s ≤ 60 := by
  cases s with
  | nil => simp [aggregate]
  | cons a t =>
    simp only [aggregate]
    split_ifs <;> omega

/-- With every crossing fee in `[0, B]` and `B ≤ 1799`, the 64-bit sum cannot
overflow and the total is never negative. -/
theorem aggregate_nonneg (v : Option Vehicle) (c : Bool) (r : TaxRule) (B : Int)
    (hB0 : 0 ≤ B) (hB : B ≤ 1799) (hfee : ∀ d, 0 ≤ nextFee v c r d ∧ nextFee v c r d ≤ B)
    (s : List Time) : 0 ≤ aggregate v c r s := by
  cases s with
  | nil => simp [aggregate]
  | cons a t =>
    have hinit : FeeInv B a (LoopState.mk a 0 0) := by
      refine ⟨le_refl _, hB0, le_refl _, le_refl _, ?_⟩
      simp
    have hinv := foldl_FeeInv v c r B hB hfee a (a :: t) _ hinit
    have hov := FeeInv_no_overflow B hB a _ hinv
    simp only [aggregate]
    rw [wrapInt_of_range _ (by omega) hov.2]
    split_ifs <;> omega

theorem firstBandRate_bounds (B : Int) (hB0 : 0 ≤ B) (hour : Int) (bands : List HourlyPrice)
    (h : ∀ b ∈ bands, 0 ≤ b.Rate ∧ b.Rate ≤ B) :
    0 ≤ firstBandRate hour bands ∧ firstBandRate hour bands ≤ B := by
  induction bands with
  | nil => simp [firstBandRate, hB0]
  | cons b rest ih =>
    simp only [firstBandRate]
    split_ifs
    · exact h b (List.mem_cons_self b rest)
    · exact ih (fun x hx => h x (List.mem_cons_of_mem b hx))

theorem getTollCustomFee_bounds (B : Int) (hB0 : 0 ≤ B) (t : Time) (v : Option Vehicle)
    (r : TaxRule) (h : ∀ b ∈ r.HourlyPrices, 0 ≤ b.Rate ∧ b.Rate ≤ B) :
    0 ≤ getTollCustomFee t v r ∧ getTollCustomFee t v r ≤ B := by
  unfold getTollCustomFee
  split_ifs
  · exact ⟨le_refl _, hB0⟩
  · exact firstBandRate_bounds B hB0 _ _ h

/-- C2: in built-in mode the total is between 0 and 60 for every vehicle and every
timestamp list. -/
theorem GetTax_builtin_bounds (vehicle : Option Vehicle) (dates : List Time)
    (taxRule : TaxRule) :
    0 ≤ GetTax vehicle dates false taxRule ∧ GetTax vehicle dates false taxRule ≤ 60 := by
  unfold GetTax
  split_ifs
  · omega
  · refine ⟨aggregate_nonneg vehicle false taxRule 18 (by omega) (by omega) ?_ _,
      aggregate_le_60 vehicle false taxRule _⟩
    intro d
    simpa [nextFee] using getTollFee_bounds d vehicle

/-! ## Custom mode: the cap and exempt vehicles -/

/-- C3 (counterexample): three custom rule sets with a positive `MaxTaxedFee` for
which the total of a car on Tuesday 2013-02-05 is not within `[0, MaxTaxedFee]`.
With `MaxTaxedFee = 30` and one band of rate 50, a crossing at 12:00 costs 50.
With a band of rate -5 for hour 8, crossings at 06:00 and 08:00 total -5.
With `MaxTaxedFee = 60` and a band of rate 2^62, crossings at 06:00, 08:00 and
10:00 overflow the 64-bit sum to -2^62. -/
theorem GetTax_custom_ignores_MaxTaxedFee :
    (0 < (TaxRule.mk [HourlyPrice.mk 8 18 50] false [] 30 [] [] 0).MaxTaxedFee ∧
      GetTax (some (Vehicle.Car "ABC123")) [Date 2013 2 5 12 0 0 0 UTC] true
        (TaxRule.mk [HourlyPrice.mk 8 18 50] false [] 30 [] [] 0) = 50 ∧
      ¬ (0 ≤ GetTax (some (Vehicle.Car "ABC123")) [Date 2013 2 5 12 0 0 0 UTC] true
          (TaxRule.mk [HourlyPrice.mk 8 18 50] false [] 30 [] [] 0) ∧
        GetTax (some (Vehicle.Car "ABC123")) [Date 2013 2 5 12 0 0 0 UTC] true
          (TaxRule.mk [HourlyPrice.mk 8 18 50] false [] 30 [] [] 0) ≤
          (TaxRule.mk [HourlyPrice.mk 8 18 50] false [] 30 [] [] 0).MaxTaxedFee)) ∧
    (0 < (TaxRule.mk [HourlyPrice.mk 6 6 0, HourlyPrice.mk 8 8 (-5)] false [] 30 [] []
        0).MaxTaxedFee ∧
      GetTax (some (Vehicle.Car "ABC123"))
        [Date 2013 2 5 6 0 0 0 UTC, Date 2013 2 5 8 0 0 0 UTC] true
        (TaxRule.mk [HourlyPrice.mk 6 6 0, HourlyPrice.mk 8 8 (-5)] false [] 30 [] [] 0) = -5 ∧
      ¬ (0 ≤ GetTax (some (Vehicle.Car "ABC123"))
        [Date 2013 2 5 6 0 0 0 UTC, Date 2013 2 5 8 0 0 0 UTC] true
        (TaxRule.mk [HourlyPrice.mk 6 6 0, HourlyPrice.mk 8 8 (-5)] false [] 30 [] [] 0))) ∧
    (0 < (TaxRule.mk [HourlyPrice.mk 0 23 4611686018427387904] false [] 60 [] []
        0).MaxTaxedFee ∧
      GetTax (some (Vehicle.Car "ABC123"))
        [Date 2013 2 5 6 0 0 0 UTC, Date 2013 2 5 8 0 0 0 UTC, Date 2013 2 5 10 0 0 0 UTC] true
        (TaxRule.mk [HourlyPrice.mk 0 23 4611686018427387904] false [] 60 [] [] 0)
        = -4611686018427387904 ∧
      ¬ (0 ≤ GetTax (some (Vehicle.Car "ABC123"))
        [Date 2013 2 5 6 0 0 0 UTC, Date 2013 2 5 8 0 0 0 UTC, Date 2013 2 5 10 0 0 0 UTC] true
        (TaxRule.mk [HourlyPrice.mk 0 23 4611686018427387904] false [] 60 [] [] 0))) := by
  decide

/-- C3 (amended): in custom mode the total never exceeds the constant cap 60,
whatever `MaxTaxedFee` is, so it is at most `MaxTaxedFee` whenever
`MaxTaxedFee ≥ 60`; and it is not negative when every band rate lies between 0 and
1799, a range in which the 64-bit sum cannot overflow. -/
theorem GetTax_custom_clamp (vehicle : Option Vehicle) (dates : List Time)
    (taxRule : TaxRule) :
    GetTax vehicle dates true taxRule ≤ 60 ∧
    (60 ≤ taxRule.MaxTaxedFee → GetTax vehicle dates true taxRule ≤ taxRule.MaxTaxedFee) ∧
    ((∀ b ∈ taxRule.HourlyPrices, 0 ≤ b.Rate ∧ b.Rate ≤ 1799) →
      0 ≤ GetTax vehicle dates true taxRule) := by
  have hle : GetTax vehicle dates true taxRule ≤ 60 := by
    unfold GetTax
    split_ifs
    · omega
    · exact aggregate_le_60 vehicle true taxRule _
  refine ⟨hle, fun h => le_trans hle h, ?_⟩
  intro hr
  unfold GetTax
  split_ifs
  · omega
  · refine aggregate_nonneg vehicle true taxRule 1799 (by omega) (by omega) ?_ _
    intro d
    simpa [nextFee] using getTollCustomFee_bounds 1799 (by omega) d vehicle taxRule hr

/-- Witness for C3 (amended): the rule set of the repository's test (one band 8–18
of rate 10, `MaxTaxedFee = 60`) and a car crossing at 12:00 on 2013-02-05. -/
theorem GetTax_custom_clamp_witness :
    60 ≤ (TaxRule.mk [HourlyPrice.mk 8 18 10] false [1, 2, 3] 60 [] [] 7).MaxTaxedFee ∧
    GetTax (some (Vehicle.Car "ABC123")) [Date 2013 4 5 12 0 0 0 UTC] true
      (TaxRule.mk [HourlyPrice.mk 8 18 10] false [1, 2, 3] 60 [] [] 7) ≤
        (TaxRule.mk [HourlyPrice.mk 8 18 10] false [1, 2, 3] 60 [] [] 7).MaxTaxedFee ∧
    0 ≤ GetTax (some (Vehicle.Car "ABC123")) [Date 2013 4 5 12 0 0 0 UTC] true
      (TaxRule.mk [HourlyPrice.mk 8 18 10] false [1, 2, 3] 60 [] [] 7) :=
  ⟨by decide,
   (GetTax_custom_clamp (some (Vehicle.Car "ABC123")) [Date 2013 4 5 12 0 0 0 UTC]
      (TaxRule.mk [HourlyPrice.mk 8 18 10] false [1, 2, 3] 60 [] [] 7)).2.1 (by decide),
   (GetTax_custom_clamp (some (Vehicle.Car "ABC123")) [Date 2013 4 5 12 0 0 0 UTC]
      (TaxRule.mk [HourlyPrice.mk 8 18 10] false [1, 2, 3] 60 [] [] 7)).2.2 (by decide)⟩

/-- C4 (the code at the failing input): a bus, which is tax excluded, crossing at
12:00 on Tuesday 2013-02-05 pays 10 in custom mode under a rule set with one band
8–18 of rate 10, and 0 in built-in mode. -/
theorem GetTax_custom_charges_exempt_vehicle :
    (Vehicle.Bus "ABC123").IsTaxExcluded = true ∧
    GetTax (some (Vehicle.Bus "ABC123")) [Date 2013 2 5 12 0 0 0 UTC] true
      (TaxRule.mk [HourlyPrice.mk 8 18 10] false [] 60 [] [] 0) = 10 ∧
    GetTax (some (Vehicle.Bus "ABC123")) [Date 2013 2 5 12 0 0 0 UTC] false
      (TaxRule.mk [HourlyPrice.mk 8 18 10] false [] 60 [] [] 0) = 0 := by
  decide

/-! ## Windows -/

/-- While every crossing is within 60 minutes of the anchor, the loop keeps the
anchor and the total and raises the running maximum to the largest fee seen. -/
theorem foldl_single_window (v : Option Vehicle) (c : Bool) (r : TaxRule) (l : List Time) :
    ∀ st : LoopState, (∀ d ∈ l, minutesAtMost60 (d.Sub st.intervalStart) = true) →
      (l.foldl (loopBody v c r) st).intervalStart = st.intervalStart ∧
      (l.foldl (loopBody v c r) st).totalFee = st.totalFee ∧
      st.highestFee ≤ (l.foldl (loopBody v c r) st).highestFee ∧
      (∀ d ∈ l, nextFee v c r d ≤ (l.foldl (loopBody v c r) st).highestFee) ∧
      ((l.foldl (loopBody v c r) st).highestFee = st.highestFee ∨
        ∃ d ∈ l, (l.foldl (loopBody v c r) st).highestFee = nextFee v c r d) := by
  induction l with
  | nil => intro st _; simp
  | cons a t ih =>
    intro st h
    have ha := h a (List.mem_cons_self a t)
    have hstep : (loopBody v c r st a).intervalStart = st.intervalStart ∧
        (loopBody v c r st a).totalFee = st.totalFee ∧
        st.highestFee ≤ (loopBody v c r st a).highestFee ∧
        nextFee v c r a ≤ (loopBody v c r st a).highestFee ∧
        ((loopBody v c r st a).highestFee = st.highestFee ∨
          (loopBody v c r st a).highestFee = nextFee v c r a) := by
      simp only [loopBody, ha, if_true]
      split_ifs with hgt
      · simp only [true_and, or_true, le_refl, and_true]; omega
      · simp only [true_and, le_refl, true_or, and_true]; omega
    obtain ⟨s1, s2, s3, s4, s5⟩ := hstep
    have ht : ∀ d ∈ t, minutesAtMost60 (d.Sub (loopBody v c r st a).intervalStart) = true := by
      intro d hd
      rw [s1]
      exact h d (List.mem_cons_of_mem a hd)
    obtain ⟨i1, i2, i3, i4, i5⟩ := ih (loopBody v c r st a) ht
    simp only [List.foldl_cons]
    refine ⟨i1.trans s1, i2.trans s2, le_trans s3 i3, ?_, ?_⟩
    · intro d hd
      rw [List.mem_cons] at hd
      rcases hd with rfl | hd
      · exact le_trans s4 i3
      · exact i4 d hd
    · rcases i5 with i5 | ⟨d, hd, i5⟩
      · rcases s5 with s5 | s5
        · exact Or.inl (i5.trans s5)
        · exact Or.inr ⟨a, List.mem_cons_self a t, i5.trans s5⟩
      · exact Or.inr ⟨d, List.mem_cons_of_mem a hd, i5⟩

theorem minutesAtMost60_of_le (d s : Time) (h0 : s.nanos ≤ d.nanos)
    (h : d.nanos - s.nanos ≤ 3600000000000) : minutesAtMost60 (d.Sub s) = true := by
  simp only [minutesAtMost60, Time.Sub, decide_eq_true_eq]
  split_ifs <;> omega

/-- C5: in built-in mode, when every timestamp of the list is at most 60 minutes
after the earliest one `e`, `GetTax` returns the largest stand-alone fee
`getTollFee` among the crossings: the fee of some crossing, and no crossing has
a larger one. -/
theorem GetTax_single_window (vehicle : Option Vehicle) (taxRule : TaxRule)
    (dates : List Time) (e : Time) (he : e ∈ dates)
    (hearliest : ∀ d ∈ dates, e.nanos ≤ d.nanos)
    (hwindow : ∀ d ∈ dates, d.nanos - e.nanos ≤ 3600000000000) :
    (∃ d ∈ dates, GetTax vehicle dates false taxRule = getTollFee d vehicle) ∧
    (∀ d ∈ dates, getTollFee d vehicle ≤ GetTax vehicle dates false taxRule) := by
  have hp := sortDates_perm dates
  have hs := sortDates_ascending dates
  rw [GetTax_eq_aggregate vehicle false taxRule dates (sortDates dates) hs hp]
  generalize sortDates dates = s at hp hs
  cases s with
  | nil => exact absurd (hp.symm.subset he) (List.not_mem_nil e)
  | cons a t =>
    have hmem : ∀ d, d ∈ a :: t ↔ d ∈ dates := fun d => hp.mem_iff
    have ha : a ∈ dates := (hmem a).1 (List.mem_cons_self a t)
    unfold Ascending at hs
    rw [List.pairwise_cons] at hs
    have hae : a.nanos = e.nanos := by
      apply le_antisymm
      · have := (hmem e).2 he
        rw [List.mem_cons] at this
        rcases this with rfl | h
        · exact le_refl _
        · exact hs.1 e h
      · exact hearliest a ha
    have hin : ∀ d ∈ a :: t,
        minutesAtMost60 (d.Sub (LoopState.mk a 0 0).intervalStart) = true := by
      intro d hd
      have hd2 := (hmem d).1 hd
      have h1 := hearliest d hd2
      have h2 := hwindow d hd2
      exact minutesAtMost60_of_le d a (by omega) (by omega)
    obtain ⟨_, f2, f3, f4, f5⟩ :=
      foldl_single_window vehicle false taxRule (a :: t) (LoopState.mk a 0 0) hin
    have hfee : ∀ d, nextFee vehicle false taxRule d = getTollFee d vehicle := by
      intro d; simp [nextFee]
    have hmaxle : (List.foldl (loopBody vehicle false taxRule) (LoopState.mk a 0 0)
        (a :: t)).highestFee ≤ 18 := by
      rcases f5 with f5 | ⟨d, _, f5⟩
      · rw [f5]; show (0 : Int) ≤ 18; omega
      · rw [f5, hfee]; exact (getTollFee_bounds d vehicle).2
    have hval : aggregate vehicle false taxRule (a :: t) =
        (List.foldl (loopBody vehicle false taxRule) (LoopState.mk a 0 0) (a :: t)).highestFee := by
      simp only [aggregate, f2]
      have f3b : (0 : Int) ≤ (List.foldl (loopBody vehicle false taxRule)
          (LoopState.mk a 0 0) (a :: t)).highestFee := f3
      rw [zero_add, wrapInt_of_range _ (by omega) (by omega)]
      split_ifs <;> omega
    rw [hval]
    constructor
    · rcases f5 with f5 | ⟨d, hd, f5⟩
      · refine ⟨a, ha, ?_⟩
        have h1 := f4 a (List.mem_cons_self a t)
        have h2 := (getTollFee_bounds a vehicle).1
        rw [hfee] at h1
        rw [f5] at h1 ⊢
        have h3 : (LoopState.mk a 0 0).highestFee = 0 := rfl
        omega
      · exact ⟨d, (hmem d).1 hd, by rw [f5, hfee]⟩
    · intro d hd
      have := f4 d ((hmem d).2 hd)
      rwa [hfee] at this

/-- Witness for C5: a car on Tuesday 2013-02-05 crossing at 06:10 (fee 8) and 07:09
(fee 18) pays 18, and crossing at 06:29 and 07:29, exactly 60 minutes apart, pays 18. -/
theorem GetTax_single_window_witness :
    (getTollFee (Date 2013 2 5 6 10 0 0 UTC) (some (Vehicle.Car "ABC123")) = 8 ∧
      getTollFee (Date 2013 2 5 7 9 0 0 UTC) (some (Vehicle.Car "ABC123")) = 18 ∧
      GetTax (some (Vehicle.Car "ABC123"))
        [Date 2013 2 5 6 10 0 0 UTC, Date 2013 2 5 7 9 0 0 UTC] false
        (TaxRule.mk [] false [] 0 [] [] 0) = 18 ∧
      ∀ d ∈ [Date 2013 2 5 6 10 0 0 UTC, Date 2013 2 5 7 9 0 0 UTC],
        getTollFee d (some (Vehicle.Car "ABC123")) ≤
          GetTax (some (Vehicle.Car "ABC123"))
            [Date 2013 2 5 6 10 0 0 UTC, Date 2013 2 5 7 9 0 0 UTC] false
            (TaxRule.mk [] false [] 0 [] [] 0)) ∧
    ((Date 2013 2 5 7 29 0 0 UTC).nanos - (Date 2013 2 5 6 29 0 0 UTC).nanos = 3600000000000 ∧
      GetTax (some (Vehicle.Car "ABC123"))
        [Date 2013 2 5 6 29 0 0 UTC, Date 2013 2 5 7 29 0 0 UTC] false
        (TaxRule.mk [] false [] 0 [] [] 0) = 18 ∧
      ∀ d ∈ [Date 2013 2 5 6 29 0 0 UTC, Date 2013 2 5 7 29 0 0 UTC],
        getTollFee d (some (Vehicle.Car "ABC123")) ≤
          GetTax (some (Vehicle.Car "ABC123"))
            [Date 2013 2 5 6 29 0 0 UTC, Date 2013 2 5 7 29 0 0 UTC] false
            (TaxRule.mk [] false [] 0 [] [] 0)) :=
  ⟨⟨by decide, by decide, by decide,
    (GetTax_single_window (some (Vehicle.Car "ABC123")) (TaxRule.mk [] false [] 0 [] [] 0)
      [Date 2013 2 5 6 10 0 0 UTC, Date 2013 2 5 7 9 0 0 UTC] (Date 2013 2 5 6 10 0 0 UTC)
      (by decide) (by decide) (by decide)).2⟩,
   ⟨by decide, by decide,
    (GetTax_single_window (some (Vehicle.Car "ABC123")) (TaxRule.mk [] false [] 0 [] [] 0)
      [Date 2013 2 5 6 29 0 0 UTC, Date 2013 2 5 7 29 0 0 UTC] (Date 2013 2 5 6 29 0 0 UTC)
      (by decide) (by decide) (by decide)).2⟩⟩

theorem loopBody_within (v : Option Vehicle) (c : Bool) (r : TaxRule) (st : LoopState)
    (d : Time) (h : minutesAtMost60 (d.Sub st.intervalStart) = true) :
    loopBody v c r st d =
      if nextFee v c r d > st.highestFee
      then LoopState.mk st.intervalStart st.totalFee (nextFee v c r d) else st := by
  simp only [loopBody, h, if_true]

theorem loopBody_new_window (v : Option Vehicle) (c : Bool) (r : TaxRule) (st : LoopState)
    (d : Time) (h : ¬ minutesAtMost60 (d.Sub st.intervalStart) = true) :
    loopBody v c r st d =
      LoopState.mk d (wrapInt (st.totalFee + st.highestFee)) (nextFee v c r d) := by
  simp only [loopBody, h, Bool.false_eq_true, if_false]

/-- C6: in built-in mode, two timestamps `t1` before `t2` that are strictly more
than 60 minutes apart cost the sum of their stand-alone fees, in either input
order. -/
theorem GetTax_two_windows (vehicle : Option Vehicle) (taxRule : TaxRule) (t1 t2 : Time)
    (hapart : 3600000000000 < t2.nanos - t1.nanos) :
    GetTax vehicle [t1, t2] false taxRule = getTollFee t1 vehicle + getTollFee t2 vehicle ∧
    GetTax vehicle [t2, t1] false taxRule = getTollFee t1 vehicle + getTollFee t2 vehicle := by
  have hasc : Ascending [t1, t2] := by
    unfold Ascending
    simp only [List.pairwise_cons, List.mem_singleton, forall_eq, List.not_mem_nil,
      false_implies, implies_true, List.Pairwise.nil, and_true]
    omega
  have h11 : minutesAtMost60 (t1.Sub t1) = true := minutesAtMost60_of_le t1 t1 (le_refl _) (by omega)
  have h21 : ¬ minutesAtMost60 (t2.Sub t1) = true := fun h => by
    have := minutesAtMost60_Sub t2 t1 h
    omega
  have b1 := getTollFee_bounds t1 vehicle
  have b2 := getTollFee_bounds t2 vehicle
  have hfee : ∀ d, nextFee vehicle false taxRule d = getTollFee d vehicle := by
    intro d; simp [nextFee]
  have hstep1 : loopBody vehicle false taxRule (LoopState.mk t1 0 0) t1 =
      LoopState.mk t1 0 (getTollFee t1 vehicle) := by
    rw [loopBody_within vehicle false taxRule (LoopState.mk t1 0 0) t1 h11, hfee]
    split_ifs with hpos
    · rfl
    · have h0 : getTollFee t1 vehicle = 0 := by
        have : ¬ getTollFee t1 vehicle > 0 := hpos
        omega
      rw [h0]
  have hstep2 : loopBody vehicle false taxRule (LoopState.mk t1 0 (getTollFee t1 vehicle)) t2 =
      LoopState.mk t2 (getTollFee t1 vehicle) (getTollFee t2 vehicle) := by
    rw [loopBody_new_window vehicle false taxRule (LoopState.mk t1 0 (getTollFee t1 vehicle)) t2 h21, hfee]
    simp only [zero_add]
    rw [wrapInt_of_range _ (by omega) (by omega)]
  have hagg : aggregate vehicle false taxRule [t1, t2] =
      getTollFee t1 vehicle + getTollFee t2 vehicle := by
    simp only [aggregate, List.foldl_cons, List.foldl_nil, hstep1, hstep2]
    rw [wrapInt_of_range _ (by omega) (by omega)]
    split_ifs <;> omega
  constructor
  · rw [GetTax_eq_aggregate vehicle false taxRule [t1, t2] [t1, t2] hasc (List.Perm.refl _)]
    exact hagg
  · rw [GetTax_eq_aggregate vehicle false taxRule [t2, t1] [t1, t2] hasc (List.Perm.swap _ _ _)]
    exact hagg

/-- Witness for C6: a car on Tuesday 2013-02-05 crossing at 06:00 (fee 8) and 07:01
(fee 18) pays 26, in either input order. -/
theorem GetTax_two_windows_witness :
    getTollFee (Date 2013 2 5 6 0 0 0 UTC) (some (Vehicle.Car "ABC123")) = 8 ∧
    getTollFee (Date 2013 2 5 7 1 0 0 UTC) (some (Vehicle.Car "ABC123")) = 18 ∧
    GetTax (some (Vehicle.Car "ABC123"))
      [Date 2013 2 5 6 0 0 0 UTC, Date 2013 2 5 7 1 0 0 UTC] false
      (TaxRule.mk [] false [] 0 [] [] 0) = 8 + 18 ∧
    GetTax (some (Vehicle.Car "ABC123"))
      [Date 2013 2 5 7 1 0 0 UTC, Date 2013 2 5 6 0 0 0 UTC] false
      (TaxRule.mk [] false [] 0 [] [] 0) = 8 + 18 :=
  ⟨by decide, by decide,
   (GetTax_two_windows (some (Vehicle.Car "ABC123")) (TaxRule.mk [] false [] 0 [] [] 0)
      (Date 2013 2 5 6 0 0 0 UTC) (Date 2013 2 5 7 1 0 0 UTC) (by decide)).1,
   (GetTax_two_windows (some (Vehicle.Car "ABC123")) (TaxRule.mk [] false [] 0 [] [] 0)
      (Date 2013 2 5 6 0 0 0 UTC) (Date 2013 2 5 7 1 0 0 UTC) (by decide)).2⟩

/-! ## Toll-free dates -/

theorem foldl_zero_fees (v : Option Vehicle) (c : Bool) (r : TaxRule) (l : List Time) :
    ∀ st : LoopState, (∀ d ∈ l, nextFee v c r d = 0) → st.totalFee = 0 → st.highestFee = 0 →
      (l.foldl (loopBody v c r) st).totalFee = 0 ∧
      (l.foldl (loopBody v c r) st).highestFee = 0 := by
  induction l with
  | nil => intro st _ h1 h2; exact ⟨h1, h2⟩
  | cons a t ih =>
    intro st h h1 h2
    have ha := h a (List.mem_cons_self a t)
    have hstep : (loopBody v c r st a).totalFee = 0 ∧ (loopBody v c r st a).highestFee = 0 := by
      simp only [loopBody, ha, h1, h2]
      split_ifs with hw hgt
      · exact absurd hgt (by omega)
      · exact ⟨h1, h2⟩
      · exact ⟨rfl, rfl⟩
    simp only [List.foldl_cons]
    exact ih _ (fun d hd => h d (List.mem_cons_of_mem a hd)) hstep.1 hstep.2

theorem aggregate_zero_fees (v : Option Vehicle) (c : Bool) (r : TaxRule) (s : List Time)
    (h : ∀ d ∈ s, nextFee v c r d = 0) : aggregate v c r s = 0 := by
  cases s with
  | nil => rfl
  | cons a t =>
    obtain ⟨h1, h2⟩ := foldl_zero_fees v c r (a :: t) (LoopState.mk a 0 0) h rfl rfl
    simp only [aggregate, h1, h2]
    rfl

theorem IsTollFreeDate_of_weekend (t : Time) (h : t.Weekday = 6 ∨ t.Weekday = 0) :
    IsTollFreeDate t = true := by
  rcases h with h | h <;> simp [IsTollFreeDate, h]

theorem Date_2013_01_01_abs (hour min sec : Int) (hh : 0 ≤ hour ∧ hour ≤ 23)
    (hm : 0 ≤ min ∧ min ≤ 59) (hs : 0 ≤ sec ∧ sec ≤ 59) :
    (Date 2013 1 1 hour min sec 0 UTC).abs / 86400 = 734868 ∧
    ((Date 2013 1 1 hour min sec 0 UTC).abs + 86400) % 604800 / 86400 = 2 := by
  have h1 : (Date 2013 1 1 hour min sec 0 UTC).abs =
      63492595200 + (hour * 3600 + min * 60 + sec) := by
    simp only [Date, Time.abs, UTC, wrapInt, isLeap, daysBefore]
    norm_num
    omega
  rw [h1]
  omega

theorem IsTollFreeDate_2013_01_01 (hour min sec : Int) (hh : 0 ≤ hour ∧ hour ≤ 23)
    (hm : 0 ≤ min ∧ min ≤ 59) (hs : 0 ≤ sec ∧ sec ≤ 59) :
    (Date 2013 1 1 hour min sec 0 UTC).Weekday = 2 ∧
    (Date 2013 1 1 hour min sec 0 UTC).Year = 2013 ∧
    (Date 2013 1 1 hour min sec 0 UTC).Month = 1 ∧
    (Date 2013 1 1 hour min sec 0 UTC).Day = 1 ∧
    IsTollFreeDate (Date 2013 1 1 hour min sec 0 UTC) = true := by
  obtain ⟨h1, h2⟩ := Date_2013_01_01_abs hour min sec hh hm hs
  have hw : (Date 2013 1 1 hour min sec 0 UTC).Weekday = 2 := h2
  have hy : (Date 2013 1 1 hour min sec 0 UTC).Year = 2013 := by
    simp only [Time.Year, h1]; decide
  have hmo : (Date 2013 1 1 hour min sec 0 UTC).Month = 1 := by
    simp only [Time.Month, h1]; decide
  have hd : (Date 2013 1 1 hour min sec 0 UTC).Day = 1 := by
    simp only [Time.Day, h1]; decide
  refine ⟨hw, hy, hmo, hd, ?_⟩
  simp only [IsTollFreeDate, hw, hy, hmo, hd]
  decide

/-- C10: a toll-free date costs nothing in built-in mode.  Every Saturday and Sunday
is toll-free, and so is 2013-01-01 (a Tuesday) at every time of day; on a toll-free
date `getTollFee` returns 0 for every vehicle; and a list made only of such
timestamps has `GetTax` equal to 0. -/
theorem tollFreeDate_costs_nothing (vehicle : Option Vehicle) (taxRule : TaxRule) :
    (∀ t : Time, t.Weekday = 6 ∨ t.Weekday = 0 → IsTollFreeDate t = true) ∧
    (∀ hour min sec : Int, 0 ≤ hour ∧ hour ≤ 23 → 0 ≤ min ∧ min ≤ 59 → 0 ≤ sec ∧ sec ≤ 59 →
      IsTollFreeDate (Date 2013 1 1 hour min sec 0 UTC) = true) ∧
    (∀ t : Time, IsTollFreeDate t = true → getTollFee t vehicle = 0) ∧
    (∀ dates : List Time, (∀ d ∈ dates, IsTollFreeDate d = true) →
      GetTax vehicle dates false taxRule = 0) := by
  refine ⟨IsTollFreeDate_of_weekend,
    fun hour min sec hh hm hs => (IsTollFreeDate_2013_01_01 hour min sec hh hm hs).2.2.2.2,
    fun t ht => getTollFee_exempt t vehicle (Or.inl ht), ?_⟩
  intro dates hall
  rw [GetTax_eq_aggregate vehicle false taxRule dates (sortDates dates)
    (sortDates_ascending dates) (sortDates_perm dates)]
  apply aggregate_zero_fees
  intro d hd
  have hd2 : d ∈ dates := (sortDates_perm dates).subset hd
  simp only [nextFee, Bool.false_eq_true, if_false]
  exact getTollFee_exempt d vehicle (Or.inl (hall d hd2))

/-- Witness for C10: Saturday 2013-02-09 and Sunday 2013-02-10 are toll-free, a car
crossing at 07:30 on New Year's Day 2013 or on that Saturday pays 0, and the three
crossings together pay 0. -/
theorem tollFreeDate_costs_nothing_witness :
    (Date 2013 2 9 7 30 0 0 UTC).Weekday = 6 ∧
    (Date 2013 2 10 16 0 0 0 UTC).Weekday = 0 ∧
    IsTollFreeDate (Date 2013 2 9 7 30 0 0 UTC) = true ∧
    IsTollFreeDate (Date 2013 2 10 16 0 0 0 UTC) = true ∧
    IsTollFreeDate (Date 2013 1 1 7 30 0 0 UTC) = true ∧
    getTollFee (Date 2013 1 1 7 30 0 0 UTC) (some (Vehicle.Car "ABC123")) = 0 ∧
    getTollFee (Date 2013 2 9 7 30 0 0 UTC) (some (Vehicle.Car "ABC123")) = 0 ∧
    GetTax (some (Vehicle.Car "ABC123"))
      [Date 2013 2 9 7 30 0 0 UTC, Date 2013 1 1 7 30 0 0 UTC, Date 2013 2 10 16 0 0 0 UTC]
      false (TaxRule.mk [] false [] 0 [] [] 0) = 0 :=
  ⟨by decide, by decide,
   (tollFreeDate_costs_nothing (some (Vehicle.Car "ABC123"))
      (TaxRule.mk [] false [] 0 [] [] 0)).1 (Date 2013 2 9 7 30 0 0 UTC) (by decide),
   (tollFreeDate_costs_nothing (some (Vehicle.Car "ABC123"))
      (TaxRule.mk [] false [] 0 [] [] 0)).1 (Date 2013 2 10 16 0 0 0 UTC) (by decide),
   (tollFreeDate_costs_nothing (some (Vehicle.Car "ABC123"))
      (TaxRule.mk [] false [] 0 [] [] 0)).2.1 7 30 0 (by decide) (by decide) (by decide),
   (tollFreeDate_costs_nothing (some (Vehicle.Car "ABC123"))
      (TaxRule.mk [] false [] 0 [] [] 0)).2.2.1 (Date 2013 1 1 7 30 0 0 UTC) (by decide),
   (tollFreeDate_costs_nothing (some (Vehicle.Car "ABC123"))
      (TaxRule.mk [] false [] 0 [] [] 0)).2.2.1 (Date 2013 2 9 7 30 0 0 UTC) (by decide),
   (tollFreeDate_costs_nothing (some (Vehicle.Car "ABC123"))
      (TaxRule.mk [] false [] 0 [] [] 0)).2.2.2
      [Date 2013 2 9 7 30 0 0 UTC, Date 2013 1 1 7 30 0 0 UTC, Date 2013 2 10 16 0 0 0 UTC]
      (by decide)⟩

/-! ## The toll-free dates -/

/-- `IsTollFreeDate` as a proposition about the weekday and the calendar date. -/
theorem IsTollFreeDate_iff (d : Time) :
    IsTollFreeDate d = true ↔
      (d.Weekday = 6 ∨ d.Weekday = 0) ∨
      (d.Year = 2013 ∧
        ((d.Month = 1 ∧ d.Day = 1) ∨
         (d.Month = 3 ∧ d.Day = 28) ∨ (d.Month = 3 ∧ d.Day = 29) ∨
         (d.Month = 4 ∧ d.Day = 1) ∨ (d.Month = 4 ∧ d.Day = 30) ∨
         (d.Month = 5 ∧ d.Day = 1) ∨ (d.Month = 5 ∧ d.Day = 8) ∨ (d.Month = 5 ∧ d.Day = 9) ∨
         (d.Month = 6 ∧ d.Day = 5) ∨ (d.Month = 6 ∧ d.Day = 6) ∨ (d.Month = 6 ∧ d.Day = 21) ∨
         d.Month = 7 ∨
         (d.Month = 11 ∧ d.Day = 1) ∨
         (d.Month = 12 ∧ d.Day = 24) ∨ (d.Month = 12 ∧ d.Day = 25) ∨
         (d.Month = 12 ∧ d.Day = 26) ∨ (d.Month = 12 ∧ d.Day = 31))) := by
  unfold IsTollFreeDate
  generalize d.Weekday = w
  generalize d.Year = y
  generalize d.Month = m
  generalize d.Day = n
  simp only [beq_iff_eq, Bool.or_eq_true, Bool.and_eq_true]
  by_cases hw : w = 6 ∨ w = 0
  · simp only [hw, if_true, true_or]
  · simp only [hw, if_false, false_or]
    by_cases hy : y = 2013
    · simp only [hy, if_true, true_and]
      split_ifs with h
      · simp only [and_or_left, or_assoc] at h
        exact ⟨fun _ => h, fun _ => rfl⟩
      · simp only [and_or_left, or_assoc] at h
        exact ⟨fun x => x.elim, fun x => absurd x h⟩
    · simp only [hy, if_false, false_and, Bool.false_eq_true]

/-- The weekday and the calendar date depend only on the local day number. -/
theorem IsTollFreeDate_same_day (t u : Time) (h : t.abs / 86400 = u.abs / 86400) :
    IsTollFreeDate t = IsTollFreeDate u := by
  have hw : t.Weekday = u.Weekday := by
    unfold Time.Weekday; omega
  simp only [IsTollFreeDate, Time.Year, Time.Month, Time.Day, h, hw]

theorem daysBefore_range (m : Int) : 0 ≤ daysBefore m ∧ daysBefore m ≤ 365 := by
  unfold daysBefore
  have hcases : m ≤ 0 ∨ m = 1 ∨ m = 2 ∨ m = 3 ∨ m = 4 ∨ m = 5 ∨ m = 6 ∨ m = 7 ∨ m = 8 ∨
      m = 9 ∨ m = 10 ∨ m = 11 ∨ 12 ≤ m := by omega
  rcases hcases with h | h | h | h | h | h | h | h | h | h | h | h | h <;>
    simp (disch := omega) only [if_pos, if_neg] <;> constructor <;> norm_num

/-- In 2013 the local day number of `Date` does not depend on the time of day. -/
theorem Date_2013_same_day (month day hour min sec : Int) (hd : 1 ≤ day ∧ day ≤ 31)
    (hh : 0 ≤ hour ∧ hour ≤ 23) (hm : 0 ≤ min ∧ min ≤ 59) (hs : 0 ≤ sec ∧ sec ≤ 59) :
    (Date 2013 month day hour min sec 0 UTC).abs / 86400 =
      (Date 2013 month day 12 0 0 0 UTC).abs / 86400 := by
  have hb := daysBefore_range (month - 1)
  have hl : isLeap 2013 = false := by decide
  simp only [Date, Time.abs, UTC, hl, Bool.false_and, Bool.false_eq_true, if_false]
  generalize daysBefore (month - 1) = D at hb
  rw [wrapInt_of_range _ (by omega) (by omega), wrapInt_of_range _ (by omega) (by omega)]
  omega

/-- C11: `IsTollFreeDate d` is true exactly when `d` is a Saturday or Sunday, or is
in 2013 and one of 1 Jan, 28 Mar, 29 Mar, 1 Apr, 30 Apr, 1 May, 8 May, 9 May, 5 Jun,
6 Jun, 21 Jun, any day of July, 1 Nov, 24, 25, 26 or 31 Dec.  Two timestamps on the
same local day get the same answer, whatever their time of day; so at every time
of day 2013-01-01, 2013-03-28 and 2013-04-01 are toll-free and the weekdays
2013-01-02 and 2013-03-27 are not. -/
theorem IsTollFreeDate_characterisation :
    (∀ d : Time, IsTollFreeDate d = true ↔
      (d.Weekday = 6 ∨ d.Weekday = 0) ∨
      (d.Year = 2013 ∧
        ((d.Month = 1 ∧ d.Day = 1) ∨
         (d.Month = 3 ∧ d.Day = 28) ∨ (d.Month = 3 ∧ d.Day = 29) ∨
         (d.Month = 4 ∧ d.Day = 1) ∨ (d.Month = 4 ∧ d.Day = 30) ∨
         (d.Month = 5 ∧ d.Day = 1) ∨ (d.Month = 5 ∧ d.Day = 8) ∨ (d.Month = 5 ∧ d.Day = 9) ∨
         (d.Month = 6 ∧ d.Day = 5) ∨ (d.Month = 6 ∧ d.Day = 6) ∨ (d.Month = 6 ∧ d.Day = 21) ∨
         d.Month = 7 ∨
         (d.Month = 11 ∧ d.Day = 1) ∨
         (d.Month = 12 ∧ d.Day = 24) ∨ (d.Month = 12 ∧ d.Day = 25) ∨
         (d.Month = 12 ∧ d.Day = 26) ∨ (d.Month = 12 ∧ d.Day = 31)))) ∧
    (∀ t u : Time, t.abs / 86400 = u.abs / 86400 → IsTollFreeDate t = IsTollFreeDate u) ∧
    (∀ hour min sec : Int, 0 ≤ hour ∧ hour ≤ 23 → 0 ≤ min ∧ min ≤ 59 → 0 ≤ sec ∧ sec ≤ 59 →
      IsTollFreeDate (Date 2013 1 1 hour min sec 0 UTC) = true ∧
      IsTollFreeDate (Date 2013 3 28 hour min sec 0 UTC) = true ∧
      IsTollFreeDate (Date 2013 4 1 hour min sec 0 UTC) = true ∧
      IsTollFreeDate (Date 2013 1 2 hour min sec 0 UTC) = false ∧
      IsTollFreeDate (Date 2013 3 27 hour min sec 0 UTC) = false) := by
  refine ⟨IsTollFreeDate_iff, IsTollFreeDate_same_day, ?_⟩
  intro hour min sec hh hm hs
  refine ⟨?_, ?_, ?_, ?_, ?_⟩
  · rw [IsTollFreeDate_same_day _ _ (Date_2013_same_day 1 1 hour min sec (by decide) hh hm hs)]
    decide
  · rw [IsTollFreeDate_same_day _ _ (Date_2013_same_day 3 28 hour min sec (by decide) hh hm hs)]
    decide
  · rw [IsTollFreeDate_same_day _ _ (Date_2013_same_day 4 1 hour min sec (by decide) hh hm hs)]
    decide
  · rw [IsTollFreeDate_same_day _ _ (Date_2013_same_day 1 2 hour min sec (by decide) hh hm hs)]
    decide
  · rw [IsTollFreeDate_same_day _ _ (Date_2013_same_day 3 27 hour min sec (by decide) hh hm hs)]
    decide

/-- Witness for C11: the dates of the repository's test at 12:00 UTC, and two
different times of day on 2013-03-28. -/
theorem IsTollFreeDate_characterisation_witness :
    IsTollFreeDate (Date 2013 3 28 6 30 0 0 UTC) =
      IsTollFreeDate (Date 2013 3 28 23 59 59 0 UTC) ∧
    IsTollFreeDate (Date 2013 1 1 12 0 0 0 UTC) = true ∧
    IsTollFreeDate (Date 2013 3 28 12 0 0 0 UTC) = true ∧
    IsTollFreeDate (Date 2013 4 1 12 0 0 0 UTC) = true ∧
    IsTollFreeDate (Date 2013 1 2 12 0 0 0 UTC) = false ∧
    IsTollFreeDate (Date 2013 3 27 12 0 0 0 UTC) = false :=
  ⟨IsTollFreeDate_characterisation.2.1 (Date 2013 3 28 6 30 0 0 UTC)
      (Date 2013 3 28 23 59 59 0 UTC) (by decide),
   IsTollFreeDate_characterisation.2.2 12 0 0 (by decide) (by decide) (by decide)⟩

/-! ## Custom rules -/

/-- The scan of the bands agrees with `List.find?` on the containment test. -/
theorem firstBandRate_eq_find (hour : Int) (bands : List HourlyPrice) :
    firstBandRate hour bands =
      Option.getD (Option.map HourlyPrice.Rate
        (List.find? (fun b => decide (b.StartHour ≤ hour ∧ hour ≤ b.EndHour)) bands)) 0 := by
  induction bands with
  | nil => rfl
  | cons b rest ih =>
    by_cases hb : b.StartHour ≤ hour ∧ hour ≤ b.EndHour
    · simp [firstBandRate, List.find?, hb]
    · simp only [firstBandRate, List.find?, hb, decide_False, ge_iff_le, Bool.and_eq_true,
        decide_eq_true_eq, if_false, ih]

/-- The scan returns the rate of a band that contains the hour when no earlier band
does. -/
theorem firstBandRate_append (hour : Int) (pre : List HourlyPrice) (b : HourlyPrice)
    (post : List HourlyPrice)
    (hpre : ∀ a ∈ pre, ¬ (a.StartHour ≤ hour ∧ hour ≤ a.EndHour))
    (hb : b.StartHour ≤ hour ∧ hour ≤ b.EndHour) :
    firstBandRate hour (pre ++ b :: post) = b.Rate := by
  induction pre with
  | nil => simp [firstBandRate, hb]
  | cons a rest ih =>
    have ha := hpre a (List.mem_cons_self a rest)
    simp only [List.cons_append, firstBandRate, ge_iff_le, Bool.and_eq_true, decide_eq_true_eq,
      ha, if_false]
    exact ih (fun x hx => hpre x (List.mem_cons_of_mem a hx))

/-- The scan returns 0 when no band contains the hour. -/
theorem firstBandRate_none (hour : Int) (bands : List HourlyPrice)
    (h : ∀ a ∈ bands, ¬ (a.StartHour ≤ hour ∧ hour ≤ a.EndHour)) :
    firstBandRate hour bands = 0 := by
  induction bands with
  | nil => rfl
  | cons a rest ih =>
    have ha := h a (List.mem_cons_self a rest)
    simp only [firstBandRate, ge_iff_le, Bool.and_eq_true, decide_eq_true_eq, ha, if_false]
    exact ih (fun x hx => h x (List.mem_cons_of_mem a hx))

theorem getTollCustomFee_not_exempt (t : Time) (v : Option Vehicle) (r : TaxRule)
    (hb : IsTollFreeDate t = false) (hc : IsToolFreeDateWithCustomRules t r = false) :
    getTollCustomFee t v r = firstBandRate t.Hour r.HourlyPrices := by
  simp [getTollCustomFee, hb, hc]

/-- C12: for a timestamp `t` that is toll-free neither under the built-in rules nor
under the custom exemption rules, `getTollCustomFee` returns the rate of the first
band of `HourlyPrices`, in list order, with `StartHour ≤ hour(t) ≤ EndHour`, and 0
when no band contains the hour; a timestamp with the same hour gets the same fee
whatever its minutes; and the fee does not depend on `DefaultHourlyPrice`. -/
theorem getTollCustomFee_band_lookup (t : Time) (v : Option Vehicle) (r : TaxRule)
    (hb : IsTollFreeDate t = false) (hc : IsToolFreeDateWithCustomRules t r = false) :
    (∀ (pre : List HourlyPrice) (b : HourlyPrice) (post : List HourlyPrice),
      r.HourlyPrices = pre ++ b :: post →
      (∀ a ∈ pre, ¬ (a.StartHour ≤ t.Hour ∧ t.Hour ≤ a.EndHour)) →
      (b.StartHour ≤ t.Hour ∧ t.Hour ≤ b.EndHour) →
      getTollCustomFee t v r = b.Rate) ∧
    ((∀ a ∈ r.HourlyPrices, ¬ (a.StartHour ≤ t.Hour ∧ t.Hour ≤ a.EndHour)) →
      getTollCustomFee t v r = 0) ∧
    getTollCustomFee t v r =
      Option.getD (Option.map HourlyPrice.Rate
        (List.find? (fun b => decide (b.StartHour ≤ t.Hour ∧ t.Hour ≤ b.EndHour))
          r.HourlyPrices)) 0 ∧
    (∀ u : Time, IsTollFreeDate u = false → IsToolFreeDateWithCustomRules u r = false →
      u.Hour = t.Hour → getTollCustomFee u v r = getTollCustomFee t v r) ∧
    (∀ x : Int,
      getTollCustomFee t v (TaxRule.mk r.HourlyPrices r.TaxOnWeekend r.ExcludedMonths
        r.MaxTaxedFee r.ExcludedDates r.ExcludedDays x) = getTollCustomFee t v r) := by
  have hfee := getTollCustomFee_not_exempt t v r hb hc
  refine ⟨?_, ?_, ?_, ?_, ?_⟩
  · intro pre b post hsplit hpre hin
    rw [hfee, hsplit]
    exact firstBandRate_append t.Hour pre b post hpre hin
  · intro hnone
    rw [hfee]
    exact firstBandRate_none t.Hour r.HourlyPrices hnone
  · rw [hfee]
    exact firstBandRate_eq_find t.Hour r.HourlyPrices
  · intro u hub huc hh
    rw [hfee, getTollCustomFee_not_exempt u v r hub huc, hh]
  · intro x
    rfl

/-- Witness for C12: on Tuesday 2013-02-05 at 09:45, with bands 6–7 at 5, 8–18 at 10
and 9–9 at 99, the fee is 10, the same as at 09:00; at 20:00 no band matches. -/
theorem getTollCustomFee_band_lookup_witness :
    getTollCustomFee (Date 2013 2 5 9 45 0 0 UTC) (some (Vehicle.Car "ABC123"))
      (TaxRule.mk [HourlyPrice.mk 6 7 5, HourlyPrice.mk 8 18 10, HourlyPrice.mk 9 9 99]
        false [] 60 [] [] 7) = 10 ∧
    getTollCustomFee (Date 2013 2 5 20 0 0 0 UTC) (some (Vehicle.Car "ABC123"))
      (TaxRule.mk [HourlyPrice.mk 6 7 5, HourlyPrice.mk 8 18 10, HourlyPrice.mk 9 9 99]
        false [] 60 [] [] 7) = 0 ∧
    getTollCustomFee (Date 2013 2 5 9 0 0 0 UTC) (some (Vehicle.Car "ABC123"))
      (TaxRule.mk [HourlyPrice.mk 6 7 5, HourlyPrice.mk 8 18 10, HourlyPrice.mk 9 9 99]
        false [] 60 [] [] 7) =
      getTollCustomFee (Date 2013 2 5 9 45 0 0 UTC) (some (Vehicle.Car "ABC123"))
        (TaxRule.mk [HourlyPrice.mk 6 7 5, HourlyPrice.mk 8 18 10, HourlyPrice.mk 9 9 99]
          false [] 60 [] [] 7) :=
  ⟨(getTollCustomFee_band_lookup (Date 2013 2 5 9 45 0 0 UTC) (some (Vehicle.Car "ABC123"))
      (TaxRule.mk [HourlyPrice.mk 6 7 5, HourlyPrice.mk 8 18 10, HourlyPrice.mk 9 9 99]
        false [] 60 [] [] 7) (by decide) (by decide)).1
      [HourlyPrice.mk 6 7 5] (HourlyPrice.mk 8 18 10) [HourlyPrice.mk 9 9 99] rfl
      (by decide) (by decide),
   (getTollCustomFee_band_lookup (Date 2013 2 5 20 0 0 0 UTC) (some (Vehicle.Car "ABC123"))
      (TaxRule.mk [HourlyPrice.mk 6 7 5, HourlyPrice.mk 8 18 10, HourlyPrice.mk 9 9 99]
        false [] 60 [] [] 7) (by decide) (by decide)).2.1 (by decide),
   (getTollCustomFee_band_lookup (Date 2013 2 5 9 45 0 0 UTC) (some (Vehicle.Car "ABC123"))
      (TaxRule.mk [HourlyPrice.mk 6 7 5, HourlyPrice.mk 8 18 10, HourlyPrice.mk 9 9 99]
        false [] 60 [] [] 7) (by decide) (by decide)).2.2.2.1
      (Date 2013 2 5 9 0 0 0 UTC) (by decide) (by decide) (by decide)⟩

/-- `IsToolFreeDateWithCustomRules` as a proposition: Saturday unless weekends are
taxed, or Sunday, or a matching excluded month, day of the month or date. -/
theorem IsToolFreeDateWithCustomRules_iff (d : Time) (r : TaxRule) :
    IsToolFreeDateWithCustomRules d r = true ↔
      ((r.TaxOnWeekend = false ∧ d.Weekday = 6) ∨ d.Weekday = 0) ∨
      d.Month ∈ r.ExcludedMonths ∨
      d.Day ∈ r.ExcludedDays ∨
      (∃ e ∈ r.ExcludedDates, e.Year = d.Year ∧ e.Month = d.Month ∧ e.Day = d.Day) := by
  unfold IsToolFreeDateWithCustomRules
  simp only [Bool.or_eq_true, Bool.and_eq_true, Bool.not_eq_true', beq_iff_eq,
    List.any_eq_true]
  by_cases h1 : (r.TaxOnWeekend = false ∧ d.Weekday = 6) ∨ d.Weekday = 0
  · simp only [h1, if_true, true_or]
  · simp only [h1, if_false, false_or]
    by_cases h2 : d.Month ∈ r.ExcludedMonths
    · have h2b : ∃ x, x ∈ r.ExcludedMonths ∧ x = d.Month := ⟨d.Month, h2, rfl⟩
      simp only [h2b, if_true, h2, true_or]
    · have h2b : ¬ ∃ x, x ∈ r.ExcludedMonths ∧ x = d.Month := by
        rintro ⟨x, hx, rfl⟩; exact h2 hx
      simp only [h2b, if_false, h2, false_or]
      by_cases h3 : d.Day ∈ r.ExcludedDays
      · have h3b : ∃ x, x ∈ r.ExcludedDays ∧ x = d.Day := ⟨d.Day, h3, rfl⟩
        simp only [h3b, if_true, h3, true_or]
      · have h3b : ¬ ∃ x, x ∈ r.ExcludedDays ∧ x = d.Day := by
          rintro ⟨x, hx, rfl⟩; exact h3 hx
        simp only [h3b, if_false, h3, false_or]
        by_cases h4 : ∃ e ∈ r.ExcludedDates, e.Year = d.Year ∧ e.Month = d.Month ∧ e.Day = d.Day
        · have h4b : ∃ x, x ∈ r.ExcludedDates ∧
              (x.Year = d.Year ∧ x.Month = d.Month) ∧ x.Day = d.Day := by
            obtain ⟨e, he, a, b, c⟩ := h4
            exact ⟨e, he, ⟨a, b⟩, c⟩
          simp only [h4b, if_true, h4]
        · have h4b : ¬ ∃ x, x ∈ r.ExcludedDates ∧
              (x.Year = d.Year ∧ x.Month = d.Month) ∧ x.Day = d.Day := by
            rintro ⟨e, he, ⟨a, b⟩, c⟩
            exact h4 ⟨e, he, a, b, c⟩
          simp only [h4b, if_false, h4, Bool.false_eq_true]

theorem getTollCustomFee_custom_exempt (t : Time) (v : Option Vehicle) (r : TaxRule)
    (h : IsToolFreeDateWithCustomRules t r = true) : getTollCustomFee t v r = 0 := by
  simp [getTollCustomFee, h]

/-- C13: when the month of `t` is in `ExcludedMonths`, or its day of the month is in
`ExcludedDays`, or an entry of `ExcludedDates` has the same year, month and day,
`IsToolFreeDateWithCustomRules` is true and `getTollCustomFee` is 0 for every
vehicle; so `ExcludedDays = [15]` makes every crossing on a 15th cost 0. -/
theorem custom_exclusions_cost_nothing (t : Time) (r : TaxRule) (v : Option Vehicle) :
    (t.Month ∈ r.ExcludedMonths ∨ t.Day ∈ r.ExcludedDays ∨
        (∃ e ∈ r.ExcludedDates, e.Year = t.Year ∧ e.Month = t.Month ∧ e.Day = t.Day) →
      IsToolFreeDateWithCustomRules t r = true ∧ getTollCustomFee t v r = 0) ∧
    (r.ExcludedDays = [15] → t.Day = 15 → getTollCustomFee t v r = 0) := by
  have key : t.Month ∈ r.ExcludedMonths ∨ t.Day ∈ r.ExcludedDays ∨
        (∃ e ∈ r.ExcludedDates, e.Year = t.Year ∧ e.Month = t.Month ∧ e.Day = t.Day) →
      IsToolFreeDateWithCustomRules t r = true ∧ getTollCustomFee t v r = 0 := by
    intro h
    have hx : IsToolFreeDateWithCustomRules t r = true :=
      (IsToolFreeDateWithCustomRules_iff t r).2 (Or.inr h)
    exact ⟨hx, getTollCustomFee_custom_exempt t v r hx⟩
  refine ⟨key, ?_⟩
  intro hdays hday
  refine (key (Or.inr (Or.inl ?_))).2
  rw [hdays, hday]
  exact List.mem_singleton.2 rfl

/-- Witness for C13: the rule sets and the date 2023-01-01 12:00 UTC of the
repository's test (months 1–3 excluded; days 1, 15, 30 excluded; the dates
2023-01-01 and 2023-02-14 excluded), and a car on Friday 2013-02-15 at 12:00 under
`ExcludedDays = [15]` with a band 8–18 of rate 10. -/
theorem custom_exclusions_cost_nothing_witness :
    IsToolFreeDateWithCustomRules (Date 2023 1 1 12 0 0 0 UTC)
      (TaxRule.mk [] false [1, 2, 3] 0 [] [] 0) = true ∧
    IsToolFreeDateWithCustomRules (Date 2023 1 1 12 0 0 0 UTC)
      (TaxRule.mk [] false [] 0 [] [1, 15, 30] 0) = true ∧
    IsToolFreeDateWithCustomRules (Date 2023 1 1 12 0 0 0 UTC)
      (TaxRule.mk [] false [] 0
        [Date 2023 1 1 0 0 0 0 UTC, Date 2023 2 14 0 0 0 0 UTC] [] 0) = true ∧
    (Date 2013 2 15 12 0 0 0 UTC).Weekday = 5 ∧
    getTollCustomFee (Date 2013 2 15 12 0 0 0 UTC) (some (Vehicle.Car "ABC123"))
      (TaxRule.mk [HourlyPrice.mk 8 18 10] false [] 60 [] [15] 0) = 0 :=
  ⟨((custom_exclusions_cost_nothing (Date 2023 1 1 12 0 0 0 UTC)
      (TaxRule.mk [] false [1, 2, 3] 0 [] [] 0) none).1 (Or.inl (by decide))).1,
   ((custom_exclusions_cost_nothing (Date 2023 1 1 12 0 0 0 UTC)
      (TaxRule.mk [] false [] 0 [] [1, 15, 30] 0) none).1 (Or.inr (Or.inl (by decide)))).1,
   ((custom_exclusions_cost_nothing (Date 2023 1 1 12 0 0 0 UTC)
      (TaxRule.mk [] false [] 0 [Date 2023 1 1 0 0 0 0 UTC, Date 2023 2 14 0 0 0 0 UTC] [] 0)
      none).1 (Or.inr (Or.inr (by decide)))).1,
   by decide,
   (custom_exclusions_cost_nothing (Date 2013 2 15 12 0 0 0 UTC)
      (TaxRule.mk [HourlyPrice.mk 8 18 10] false [] 60 [] [15] 0)
      (some (Vehicle.Car "ABC123"))).2 rfl (by decide)⟩

/-- C14 (counterexample): Sunday 2023-01-01 12:00 UTC under a rule set with
`TaxOnWeekend = true` and no exclusions is exempt under the custom rules, although
the right-hand side of the stated equivalence is false. -/
theorem custom_rules_exempt_sunday_although_weekend_taxed :
    (Date 2023 1 1 12 0 0 0 UTC).Weekday = 0 ∧
    (TaxRule.mk [] true [] 0 [] [] 0).TaxOnWeekend = true ∧
    IsToolFreeDateWithCustomRules (Date 2023 1 1 12 0 0 0 UTC)
      (TaxRule.mk [] true [] 0 [] [] 0) = true ∧
    ¬ ((((Date 2023 1 1 12 0 0 0 UTC).Weekday = 6 ∨ (Date 2023 1 1 12 0 0 0 UTC).Weekday = 0) ∧
          (TaxRule.mk [] true [] 0 [] [] 0).TaxOnWeekend = false) ∨
        (Date 2023 1 1 12 0 0 0 UTC).Month ∈ (TaxRule.mk [] true [] 0 [] [] 0).ExcludedMonths ∨
        (Date 2023 1 1 12 0 0 0 UTC).Day ∈ (TaxRule.mk [] true [] 0 [] [] 0).ExcludedDays ∨
        (∃ e ∈ (TaxRule.mk [] true [] 0 [] [] 0).ExcludedDates,
          e.Year = (Date 2023 1 1 12 0 0 0 UTC).Year ∧
          e.Month = (Date 2023 1 1 12 0 0 0 UTC).Month ∧
          e.Day = (Date 2023 1 1 12 0 0 0 UTC).Day)) := by
  decide

/-- C14 (amended): `IsToolFreeDateWithCustomRules d r` is true exactly when `d` is a
Saturday and `TaxOnWeekend` is false, or `d` is a Sunday, or its month is in
`ExcludedMonths`, or its day of the month is in `ExcludedDays`, or its calendar
date equals an entry of `ExcludedDates`.  With `TaxOnWeekend = true` and no matching
exclusion a Saturday is not exempt under the custom rules, and a Sunday is. -/
theorem IsToolFreeDateWithCustomRules_characterisation (d : Time) (r : TaxRule) :
    (IsToolFreeDateWithCustomRules d r = true ↔
      ((d.Weekday = 6 ∧ r.TaxOnWeekend = false) ∨ d.Weekday = 0) ∨
      d.Month ∈ r.ExcludedMonths ∨
      d.Day ∈ r.ExcludedDays ∨
      (∃ e ∈ r.ExcludedDates, e.Year = d.Year ∧ e.Month = d.Month ∧ e.Day = d.Day)) ∧
    (r.TaxOnWeekend = true → d.Month ∉ r.ExcludedMonths → d.Day ∉ r.ExcludedDays →
      (¬ ∃ e ∈ r.ExcludedDates, e.Year = d.Year ∧ e.Month = d.Month ∧ e.Day = d.Day) →
      (d.Weekday = 6 → IsToolFreeDateWithCustomRules d r = false) ∧
      (d.Weekday = 0 → IsToolFreeDateWithCustomRules d r = true)) := by
  have hiff := IsToolFreeDateWithCustomRules_iff d r
  constructor
  · rw [hiff]
    constructor
    · rintro ((⟨a, b⟩ | a) | a)
      · exact Or.inl (Or.inl ⟨b, a⟩)
      · exact Or.inl (Or.inr a)
      · exact Or.inr a
    · rintro ((⟨a, b⟩ | a) | a)
      · exact Or.inl (Or.inl ⟨b, a⟩)
      · exact Or.inl (Or.inr a)
      · exact Or.inr a
  · intro hw hm hd he
    constructor
    · intro hsat
      rw [← Bool.not_eq_true, hiff]
      rintro ((⟨a, _⟩ | a) | a | a | a)
      · rw [hw] at a; exact Bool.noConfusion a
      · rw [hsat] at a; exact absurd a (by decide)
      · exact hm a
      · exact hd a
      · exact he a
    · intro hsun
      exact hiff.2 (Or.inl (Or.inr hsun))

/-- Witness for C14 (amended): with `TaxOnWeekend = true` and no exclusions, Saturday
2022-12-31 is not exempt under the custom rules and Sunday 2023-01-01 is. -/
theorem IsToolFreeDateWithCustomRules_characterisation_witness :
    (Date 2022 12 31 12 0 0 0 UTC).Weekday = 6 ∧
    IsToolFreeDateWithCustomRules (Date 2022 12 31 12 0 0 0 UTC)
      (TaxRule.mk [] true [] 0 [] [] 0) = false ∧
    (Date 2023 1 1 12 0 0 0 UTC).Weekday = 0 ∧
    IsToolFreeDateWithCustomRules (Date 2023 1 1 12 0 0 0 UTC)
      (TaxRule.mk [] true [] 0 [] [] 0) = true :=
  ⟨by decide,
   ((IsToolFreeDateWithCustomRules_characterisation (Date 2022 12 31 12 0 0 0 UTC)
      (TaxRule.mk [] true [] 0 [] [] 0)).2 rfl (by decide) (by decide) (by decide)).1
      (by decide),
   by decide,
   ((IsToolFreeDateWithCustomRules_characterisation (Date 2023 1 1 12 0 0 0 UTC)
      (TaxRule.mk [] true [] 0 [] [] 0)).2 rfl (by decide) (by decide) (by decide)).2
      (by decide)⟩

/-- C15: every Sunday is exempt under the custom rules, whatever `TaxOnWeekend` and
the exclusions are. -/
theorem IsToolFreeDateWithCustomRules_sunday (r : TaxRule) (d : Time)
    (hsunday : d.Weekday = 0) : IsToolFreeDateWithCustomRules d r = true :=
  (IsToolFreeDateWithCustomRules_iff d r).2 (Or.inl (Or.inr hsunday))

/-- Witness for C15: 2023-01-01 12:00 UTC, a Sunday, with the rule set of the
repository's test that only sets `TaxOnWeekend = true`. -/
theorem IsToolFreeDateWithCustomRules_sunday_witness :
    (Date 2023 1 1 12 0 0 0 UTC).Weekday = 0 ∧
    IsToolFreeDateWithCustomRules (Date 2023 1 1 12 0 0 0 UTC)
      (TaxRule.mk [] true [] 0 [] [] 0) = true :=
  ⟨by decide,
   IsToolFreeDateWithCustomRules_sunday (TaxRule.mk [] true [] 0 [] [] 0)
     (Date 2023 1 1 12 0 0 0 UTC) (by decide)⟩

/-! ## Vehicles and the empty list -/

/-- The result of `GetVehicle` for each of the seven known type strings. -/
theorem GetVehicle_known (ty id : String)
    (hty : ty ∈ ["Car", "Bus", "Motorbike", "Military", "Diplomat", "Emergency", "Foreign"]) :
    (id = "" → GetVehicle ty id = (none, some "invalid license for specified vehicle")) ∧
    (id ≠ "" → ∃ w, GetVehicle ty id = (some w, none) ∧ w.GetVehicleType = ty ∧
      w.IsValidLicensePlate = true ∧ (w.IsTaxExcluded = false ↔ ty = "Car")) := by
  simp only [List.mem_cons, List.mem_singleton, List.not_mem_nil, or_false] at hty
  rcases hty with rfl | rfl | rfl | rfl | rfl | rfl | rfl
  all_goals
    constructor
    · intro hid
      subst hid
      decide
    · intro hid
      simp [GetVehicle, hid, Vehicle.GetVehicleType, Vehicle.IsValidLicensePlate,
        Vehicle.IsTaxExcluded]

/-- The result of `GetVehicle` for any other type string. -/
theorem GetVehicle_unknown (ty id : String)
    (hty : ty ∉ ["Car", "Bus", "Motorbike", "Military", "Diplomat", "Emergency", "Foreign"]) :
    GetVehicle ty id = (none, some "unknown or missing vehicle type") := by
  simp only [List.mem_cons, List.mem_singleton, List.not_mem_nil, or_false, not_or] at hty
  obtain ⟨h1, h2, h3, h4, h5, h6, h7⟩ := hty
  simp [GetVehicle, h1, h2, h3, h4, h5, h6, h7]

/-- C16: `GetVehicle ty id` returns an error, and no vehicle, exactly when `ty` is not
one of the seven known type strings or `id` is empty; otherwise it returns a vehicle
and no error, the vehicle's `GetVehicleType` is `ty` and its licence plate is valid.
`GetVehicle "Spaceship" "ABC123"` fails. -/
theorem GetVehicle_fails_exactly (ty id : String) :
    ((GetVehicle ty id).2 ≠ none ↔
      (ty ∉ ["Car", "Bus", "Motorbike", "Military", "Diplomat", "Emergency", "Foreign"] ∨
        id = "")) ∧
    ((GetVehicle ty id).2 ≠ none → (GetVehicle ty id).1 = none) ∧
    (¬ (ty ∉ ["Car", "Bus", "Motorbike", "Military", "Diplomat", "Emergency", "Foreign"] ∨
        id = "") →
      ∃ w, GetVehicle ty id = (some w, none) ∧ w.GetVehicleType = ty ∧
        w.IsValidLicensePlate = true) ∧
    GetVehicle "Spaceship" "ABC123" = (none, some "unknown or missing vehicle type") := by
  by_cases hty : ty ∈ ["Car", "Bus", "Motorbike", "Military", "Diplomat", "Emergency", "Foreign"]
  · obtain ⟨hempty, hok⟩ := GetVehicle_known ty id hty
    by_cases hid : id = ""
    · have hres := hempty hid
      refine ⟨?_, ?_, ?_, by decide⟩
      · rw [hres]
        exact ⟨fun _ => Or.inr hid, fun _ => by simp⟩
      · intro _
        rw [hres]
      · intro hn
        exact absurd (Or.inr hid) hn
    · obtain ⟨w, hres, h1, h2, _⟩ := hok hid
      refine ⟨?_, ?_, ?_, by decide⟩
      · rw [hres]
        constructor
        · intro h
          exact absurd rfl h
        · rintro (h | h)
          · exact absurd hty h
          · exact absurd h hid
      · intro h
        rw [hres] at h
        exact absurd rfl h
      · intro _
        exact ⟨w, hres, h1, h2⟩
  · have hres := GetVehicle_unknown ty id hty
    refine ⟨?_, ?_, ?_, by decide⟩
    · rw [hres]
      exact ⟨fun _ => Or.inl hty, fun _ => by simp⟩
    · intro _
      rw [hres]
    · intro hn
      exact absurd (Or.inl hty) hn

/-- Witness for C16: a car with plate ABC123 is built; an unknown type and an empty
plate fail. -/
theorem GetVehicle_fails_exactly_witness :
    (∃ w, GetVehicle "Car" "ABC123" = (some w, none) ∧ w.GetVehicleType = "Car" ∧
      w.IsValidLicensePlate = true) ∧
    (GetVehicle "Spaceship" "ABC123").2 ≠ none ∧
    (GetVehicle "Spaceship" "ABC123").1 = none ∧
    (GetVehicle "Bus" "").1 = none :=
  ⟨(GetVehicle_fails_exactly "Car" "ABC123").2.2.1 (by decide),
   (GetVehicle_fails_exactly "Spaceship" "ABC123").1.2 (Or.inl (by decide)),
   (GetVehicle_fails_exactly "Spaceship" "ABC123").2.1
     ((GetVehicle_fails_exactly "Spaceship" "ABC123").1.2 (Or.inl (by decide))),
   (GetVehicle_fails_exactly "Bus" "").2.1
     ((GetVehicle_fails_exactly "Bus" "").1.2 (Or.inr rfl))⟩

/-- C17: for every licence plate `IsTollFreeVehicle` is false for a car and true for a
bus, motorbike, military, diplomat, emergency and foreign vehicle; and for every
vehicle that `GetVehicle ty id` builds, `IsTaxExcluded` is false exactly when
`ty = "Car"`. -/
theorem exemption_flag_per_kind :
    (∀ plate : String,
      IsTollFreeVehicle (some (Vehicle.Car plate)) = false ∧
      IsTollFreeVehicle (some (Vehicle.Bus plate)) = true ∧
      (∀ typ : Int, IsTollFreeVehicle (some (Vehicle.Motorbike plate typ)) = true) ∧
      IsTollFreeVehicle (some (Vehicle.Military plate)) = true ∧
      IsTollFreeVehicle (some (Vehicle.Diplomat plate)) = true ∧
      IsTollFreeVehicle (some (Vehicle.Emergency plate)) = true ∧
      IsTollFreeVehicle (some (Vehicle.Foreign plate)) = true) ∧
    (∀ (ty id : String) (w : Vehicle), GetVehicle ty id = (some w, none) →
      (w.IsTaxExcluded = false ↔ ty = "Car")) := by
  refine ⟨fun plate => ⟨rfl, rfl, fun _ => rfl, rfl, rfl, rfl, rfl⟩, ?_⟩
  intro ty id w hres
  by_cases hty : ty ∈ ["Car", "Bus", "Motorbike", "Military", "Diplomat", "Emergency", "Foreign"]
  · obtain ⟨hempty, hok⟩ := GetVehicle_known ty id hty
    by_cases hid : id = ""
    · rw [hempty hid] at hres
      simp at hres
    · obtain ⟨w2, hres2, _, _, hflag⟩ := hok hid
      rw [hres2] at hres
      simp only [Prod.mk.injEq, Option.some.injEq, and_true] at hres
      rw [← hres]
      exact hflag
  · rw [GetVehicle_unknown ty id hty] at hres
    simp at hres

/-- Witness for C17: the car and the bus that `GetVehicle` builds for plate ABC123. -/
theorem exemption_flag_per_kind_witness :
    GetVehicle "Car" "ABC123" = (some (Vehicle.Car "ABC123"), none) ∧
    ((Vehicle.Car "ABC123").IsTaxExcluded = false ↔ "Car" = "Car") ∧
    GetVehicle "Bus" "ABC123" = (some (Vehicle.Bus "ABC123"), none) ∧
    ((Vehicle.Bus "ABC123").IsTaxExcluded = false ↔ "Bus" = "Car") :=
  ⟨by decide,
   exemption_flag_per_kind.2 "Car" "ABC123" (Vehicle.Car "ABC123") (by decide),
   by decide,
   exemption_flag_per_kind.2 "Bus" "ABC123" (Vehicle.Bus "ABC123") (by decide)⟩

/-- C18: on an empty timestamp list `GetTax` returns 0, for every vehicle (`none`
is the nil vehicle), either mode and every rule set. -/
theorem GetTax_empty (vehicle : Option Vehicle) (isCustom : Bool) (taxRule : TaxRule) :
    GetTax vehicle [] isCustom taxRule = 0 := by
  rfl

/-! ## The caller's slice -/

/-- An ascending arrangement of a list whose instants strictly increase is that
list itself. -/
theorem ascending_perm_of_strict (l : List Time) :
    ∀ s : List Time, l.Pairwise (fun a b => a.nanos < b.nanos) → Ascending s → s.Perm l →
      s = l := by
  induction l with
  | nil => intro s _ _ hp; exact List.perm_nil.1 hp
  | cons a t ih =>
    intro s hl hs hp
    cases s with
    | nil => exact absurd hp.symm (by simp)
    | cons b t' =>
      rw [List.pairwise_cons] at hl
      unfold Ascending at hs
      rw [List.pairwise_cons] at hs
      have hb : b ∈ a :: t := hp.subset (List.mem_cons_self b t')
      have ha : a ∈ b :: t' := hp.symm.subset (List.mem_cons_self a t)
      rw [List.mem_cons] at ha hb
      have hba : b = a := by
        rcases hb with hb | hb
        · exact hb
        · rcases ha with ha | ha
          · exact ha.symm
          · have h1 := hl.1 b hb
            have h2 := hs.1 a ha
            omega
      subst hba
      rw [ih t' hl.2 hs.2 (List.Perm.cons_inv hp)]

/-- C19 (counterexample): after `GetTax` on the list [07:01, 06:00] of 2013-02-05
the caller's list is [06:00, 07:01], not the list passed in. -/
theorem GetTax_reorders_input :
    datesAfterGetTax [Date 2013 2 5 7 1 0 0 UTC, Date 2013 2 5 6 0 0 0 UTC] =
      [Date 2013 2 5 6 0 0 0 UTC, Date 2013 2 5 7 1 0 0 UTC] ∧
    datesAfterGetTax [Date 2013 2 5 7 1 0 0 UTC, Date 2013 2 5 6 0 0 0 UTC] ≠
      [Date 2013 2 5 7 1 0 0 UTC, Date 2013 2 5 6 0 0 0 UTC] := by
  decide

/-- C19 (amended): after `GetTax` returns, the caller's list holds the same
timestamps, each as often as before, arranged in ascending order of instants; it
is the list passed in when that list was empty or strictly ascending, and then
every ascending arrangement of it is the list itself. -/
theorem GetTax_sorts_input (dates : List Time) :
    (datesAfterGetTax dates).Perm dates ∧
    Ascending (datesAfterGetTax dates) ∧
    (dates = [] → datesAfterGetTax dates = dates) ∧
    (dates.Pairwise (fun a b => a.nanos < b.nanos) →
      datesAfterGetTax dates = dates ∧
      ∀ s : List Time, Ascending s → s.Perm dates → s = dates) := by
  have hdef : datesAfterGetTax dates = sortDates dates := by
    unfold datesAfterGetTax
    split_ifs with h
    · rw [List.length_eq_zero] at h
      subst h
      rfl
    · rfl
  rw [hdef]
  refine ⟨sortDates_perm dates, sortDates_ascending dates, ?_, ?_⟩
  · intro h
    subst h
    rfl
  · intro hstrict
    exact ⟨ascending_perm_of_strict dates _ hstrict (sortDates_ascending dates)
        (sortDates_perm dates),
      fun s hs hp => ascending_perm_of_strict dates s hstrict hs hp⟩

/-- Witness for C19 (amended): the list [06:00, 07:01] of 2013-02-05 is strictly
ascending and is left as it was. -/
theorem GetTax_sorts_input_witness :
    [Date 2013 2 5 6 0 0 0 UTC, Date 2013 2 5 7 1 0 0 UTC].Pairwise
      (fun a b => a.nanos < b.nanos) ∧
    datesAfterGetTax [Date 2013 2 5 6 0 0 0 UTC, Date 2013 2 5 7 1 0 0 UTC] =
      [Date 2013 2 5 6 0 0 0 UTC, Date 2013 2 5 7 1 0 0 UTC] ∧
    datesAfterGetTax [] = [] :=
  ⟨by decide,
   ((GetTax_sorts_input [Date 2013 2 5 6 0 0 0 UTC, Date 2013 2 5 7 1 0 0 UTC]).2.2.2
      (by decide)).1,
   (GetTax_sorts_input []).2.2.1 rfl⟩

/-! ## The cache -/

/-- Removing the pairs of another key does not change what a key maps to. -/
theorem lookup_filter_ne (k k2 : String) (hk : k2 ≠ k) (data : List (String × String)) :
    List.lookup k2 (data.filter (fun entry => entry.1 != k)) = List.lookup k2 data := by
  induction data with
  | nil => rfl
  | cons e rest ih =>
    obtain ⟨a, b⟩ := e
    by_cases ha : a = k
    · subst ha
      have h1 : (k2 == a) = false := by simpa using hk
      simp only [List.filter_cons, bne_self_eq_false, Bool.false_eq_true, if_false,
        List.lookup_cons, h1, ih]
    · have h2 : (a != k) = true := by simpa using ha
      simp only [List.filter_cons, h2, if_true, List.lookup_cons, ih]

/-- C20: after `Set k v`, `Get k` returns `(v, true)` and `Get` of any other key returns
what it returned before; on a cache fresh from `NewCache`, `Get` returns `("", false)`
for every key. -/
theorem Cache_get_after_set :
    (∀ (c : Cache) (k v : String), (c.Set k v).Get k = (v, true)) ∧
    (∀ (c : Cache) (k v k2 : String), k2 ≠ k → (c.Set k v).Get k2 = c.Get k2) ∧
    (∀ k : String, NewCache.Get k = ("", false)) := by
  refine ⟨?_, ?_, ?_⟩
  · intro c k v
    simp [Cache.Set, Cache.Get, List.lookup_cons]
  · intro c k v k2 hk
    have h1 : (k2 == k) = false := by simpa using hk
    simp only [Cache.Set, Cache.Get, List.lookup_cons, h1, lookup_filter_ne k k2 hk]
  · intro k
    rfl

/-- Witness for C20: the key and value of the repository's test, and a second key. -/
theorem Cache_get_after_set_witness :
    (NewCache.Set "testKey" "testValue").Get "testKey" = ("testValue", true) ∧
    ((NewCache.Set "other" "1").Set "testKey" "testValue").Get "other" = ("1", true) ∧
    (NewCache.Set "testKey" "testValue").Get "other" = ("", false) :=
  ⟨Cache_get_after_set.1 NewCache "testKey" "testValue",
   (Cache_get_after_set.2.1 (NewCache.Set "other" "1") "testKey" "testValue" "other"
      (by decide)).trans (by decide),
   (Cache_get_after_set.2.1 NewCache "testKey" "testValue" "other" (by decide)).trans
      (Cache_get_after_set.2.2 "other")⟩

/-! ## Random dates -/

/-- The year of day number `k` (at most 364) of the year that follows `Y` whole
years after year 1. -/
theorem yearDay_year (Y k : Int) (hk : 0 ≤ k ∧ k ≤ 364) :
    (yearDay (365 * Y + Y / 4 - Y / 100 + Y / 400 + k)).1 = Y + 1 := by
  obtain ⟨q, a, e, f, hY, ha, he, hf⟩ : ∃ q a e f : Int,
      Y = 400 * q + 100 * a + 4 * e + f ∧ (0 ≤ a ∧ a ≤ 3) ∧ (0 ≤ e ∧ e ≤ 24) ∧
        (0 ≤ f ∧ f ≤ 3) :=
    ⟨Y / 400, Y % 400 / 100, Y % 100 / 4, Y % 4, by omega, by omega, by omega, by omega⟩
  have h4 : Y / 4 = 100 * q + 25 * a + e := by omega
  have h100 : Y / 100 = 4 * q + a := by omega
  have h400 : Y / 400 = q := by omega
  have harg : 365 * Y + Y / 4 - Y / 100 + Y / 400 + k =
      146097 * q + (36524 * a + (1461 * e + (365 * f + k))) := by
    rw [h4, h100, h400, hY]; ring
  rw [harg]
  have e1 : (146097 * q + (36524 * a + (1461 * e + (365 * f + k)))) / 146097 = q := by omega
  have e2 : (146097 * q + (36524 * a + (1461 * e + (365 * f + k)))) % 146097 =
      36524 * a + (1461 * e + (365 * f + k)) := by omega
  have e3 : (36524 * a + (1461 * e + (365 * f + k))) / 36524 = a := by omega
  have e4 : a - a / 4 = a := by omega
  have e5 : 36524 * a + (1461 * e + (365 * f + k)) - 36524 * a = 1461 * e + (365 * f + k) := by
    omega
  have e6 : (1461 * e + (365 * f + k)) / 1461 = e := by omega
  have e7 : (1461 * e + (365 * f + k)) % 1461 = 365 * f + k := by omega
  have e8 : (365 * f + k) / 365 = f := by omega
  have e9 : f - f / 4 = f := by omega
  simp only [yearDay, e1, e2, e3, e4, e5, e6, e7, e8, e9]
  omega

/-- January 1 and December 31 of a year that `Time` can represent: the wall seconds
are not wrapped. -/
theorem Date_year_ends (y : Int) (hy : -292277022399 ≤ y ∧ y ≤ 292277022399) :
    (Date y 1 1 0 0 0 0 UTC).wallSec =
      (365 * (y - 1) + (y - 1) / 4 - (y - 1) / 100 + (y - 1) / 400) * 86400 ∧
    (Date y 1 1 0 0 0 0 UTC).nsec = 0 ∧
    (Date y 1 1 0 0 0 0 UTC).offset = 0 ∧
    (Date y 12 31 0 0 0 0 UTC).wallSec =
      (365 * (y - 1) + (y - 1) / 4 - (y - 1) / 100 + (y - 1) / 400 + 364 +
        (if isLeap y = true then 1 else 0)) * 86400 ∧
    (Date y 12 31 0 0 0 0 UTC).nsec = 0 := by
  have hd0 : daysBefore (1 - 1) = 0 := by decide
  have hd11 : daysBefore (12 - 1) = 334 := by decide
  refine ⟨?_, rfl, rfl, ?_, rfl⟩
  · simp only [Date, UTC, hd0]
    rw [wrapInt_of_range _ (by simp; omega) (by simp; omega)]
    simp
  · simp only [Date, UTC, hd11]
    by_cases hl : isLeap y = true
    · simp only [hl, if_true]
      rw [wrapInt_of_range _ (by simp; omega) (by simp; omega)]
      simp
      omega
    · simp only [hl, if_false]
      rw [wrapInt_of_range _ (by simp; omega) (by simp; omega)]
      simp
      omega

/-- The generator's bound is the number of seconds in 364 days, or in 365 days in a
leap year. -/
theorem randomSecondsBound_eq (y : Int) (hy : -292277022399 ≤ y ∧ y ≤ 292277022399) :
    randomSecondsBound y = (364 + (if isLeap y = true then 1 else 0)) * 86400 := by
  obtain ⟨h1, h2, _, h4, h5⟩ := Date_year_ends y hy
  simp only [randomSecondsBound, Time.Sub, Time.nanos, h1, h2, h4, h5, quoTrunc]
  by_cases hl : isLeap y = true
  · simp only [hl, if_true]
    split_ifs <;> omega
  · simp only [hl, if_false]
    split_ifs <;> omega

/-- The time `GenerateRandomDate` returns for a draw `s` below the bound. -/
theorem GenerateRandomDate_abs (y s : Int) (hy : -292277022399 ≤ y ∧ y ≤ 292277022399)
    (hs : 0 ≤ s ∧ s < randomSecondsBound y) :
    (GenerateRandomDate y s).abs =
      (365 * (y - 1) + (y - 1) / 4 - (y - 1) / 100 + (y - 1) / 400) * 86400 + s ∧
    s < 365 * 86400 := by
  obtain ⟨h1, h2, h3, _, _⟩ := Date_year_ends y hy
  have hb := randomSecondsBound_eq y hy
  have hs2 : s < 365 * 86400 := by
    rw [hb] at hs
    split_ifs at hs <;> omega
  refine ⟨?_, hs2⟩
  have hdur : wrapInt (s * 1000000000) = s * 1000000000 :=
    wrapInt_of_range _ (by omega) (by omega)
  have hrem : remTrunc (s * 1000000000) 1000000000 = 0 := by
    unfold remTrunc; split_ifs <;> omega
  have hquo : quoTrunc (s * 1000000000) 1000000000 = s := by
    unfold quoTrunc; split_ifs <;> omega
  simp only [GenerateRandomDate, hdur, Time.Add, hrem, hquo, h2, h3, Time.abs]
  norm_num
  rw [h1]
  unfold addSec
  split_ifs <;> omega

/-- C21 (counterexample): for the year 300000000000 the draw 0 is below the bound, and
the returned time, whose wall seconds have wrapped around the `int64` range, has
`Year()` equal to -284554049254. -/
theorem random_date_year_wraps_for_huge_year :
    0 < randomSecondsBound 300000000000 ∧
    (GenerateRandomDate 300000000000 0).Year = -284554049254 ∧
    (GenerateRandomDate 300000000000 0).Year ≠ 300000000000 := by
  decide

/-- C21 (amended): for every year `y` between -292277022399 and 292277022399 and every
draw `s` with `0 ≤ s` below the number of seconds from January 1 to December 31 of
`y`, the time `GenerateRandomDate` returns has `Year()` equal to `y`. -/
theorem GenerateRandomDate_year (y s : Int)
    (hy : -292277022399 ≤ y ∧ y ≤ 292277022399)
    (hs : 0 ≤ s ∧ s < randomSecondsBound y) :
    (GenerateRandomDate y s).Year = y := by
  obtain ⟨habs, hs2⟩ := GenerateRandomDate_abs y s hy hs
  have hday : (GenerateRandomDate y s).abs / 86400 =
      365 * (y - 1) + (y - 1) / 4 - (y - 1) / 100 + (y - 1) / 400 + s / 86400 := by
    rw [habs]; omega
  unfold Time.Year
  rw [hday, yearDay_year (y - 1) (s / 86400) (by omega)]
  omega

/-- Witness for C21 (amended): the year 2022 of the repository's test, with the
first and the last draw the generator can make. -/
theorem GenerateRandomDate_year_witness :
    randomSecondsBound 2022 = 31449600 ∧
    (GenerateRandomDate 2022 0).Year = 2022 ∧
    (GenerateRandomDate 2022 31449599).Year = 2022 :=
  ⟨by decide,
   GenerateRandomDate_year 2022 0 (by decide) (by decide),
   GenerateRandomDate_year 2022 31449599 (by decide) (by decide)⟩

/-! ## Monotonicity, duplicates and the weekend flag -/

/-- C23: the total is not monotone in the set of crossings.  For a car on Tuesday
2013-02-05 the crossings 06:25, 07:20, 07:35, 08:30 cost 36, and with the extra
crossing 06:10 they cost 34. -/
theorem GetTax_not_monotone :
    (Vehicle.Car "ABC123").IsTaxExcluded = false ∧
    IsTollFreeDate (Date 2013 2 5 6 10 0 0 UTC) = false ∧
    GetTax (some (Vehicle.Car "ABC123"))
      [Date 2013 2 5 6 25 0 0 UTC, Date 2013 2 5 7 20 0 0 UTC, Date 2013 2 5 7 35 0 0 UTC,
        Date 2013 2 5 8 30 0 0 UTC] false (TaxRule.mk [] false [] 0 [] [] 0) = 36 ∧
    GetTax (some (Vehicle.Car "ABC123"))
      ([Date 2013 2 5 6 25 0 0 UTC, Date 2013 2 5 7 20 0 0 UTC, Date 2013 2 5 7 35 0 0 UTC,
        Date 2013 2 5 8 30 0 0 UTC] ++ [Date 2013 2 5 6 10 0 0 UTC]) false
      (TaxRule.mk [] false [] 0 [] [] 0) = 34 ∧
    (∃ (v : Vehicle) (L : List Time) (t : Time), v.IsTaxExcluded = false ∧
      GetTax (some v) (L ++ [t]) false (TaxRule.mk [] false [] 0 [] [] 0) <
        GetTax (some v) L false (TaxRule.mk [] false [] 0 [] [] 0)) := by
  refine ⟨by decide, by decide, by decide, by decide, ?_⟩
  exact ⟨Vehicle.Car "ABC123",
    [Date 2013 2 5 6 25 0 0 UTC, Date 2013 2 5 7 20 0 0 UTC, Date 2013 2 5 7 35 0 0 UTC,
      Date 2013 2 5 8 30 0 0 UTC], Date 2013 2 5 6 10 0 0 UTC, by decide, by decide⟩

/-- The fee computed after the sort depends on the vehicle, the mode and the rule set
only through the fee of each crossing. -/
theorem aggregate_congr (v v2 : Option Vehicle) (c c2 : Bool) (r r2 : TaxRule)
    (h : ∀ d, nextFee v c r d = nextFee v2 c2 r2 d) (s : List Time) :
    aggregate v c r s = aggregate v2 c2 r2 s := by
  have hbody : loopBody v c r = loopBody v2 c2 r2 := by
    funext st d
    simp only [loopBody, h d]
  cases s with
  | nil => rfl
  | cons a t => simp only [aggregate, hbody]

theorem GetTax_congr (v v2 : Option Vehicle) (c c2 : Bool) (r r2 : TaxRule)
    (h : ∀ d, nextFee v c r d = nextFee v2 c2 r2 d) (dates : List Time) :
    GetTax v dates c r = GetTax v2 dates c2 r2 := by
  simp only [GetTax, aggregate_congr v v2 c c2 r r2 h]

/-- The custom fee of a crossing does not read `TaxOnWeekend`: on a Saturday or Sunday
the built-in test already gives 0, and on other days the flag is not consulted. -/
theorem getTollCustomFee_weekend_flag (t : Time) (v : Option Vehicle) (r1 r2 : TaxRule)
    (hp : r1.HourlyPrices = r2.HourlyPrices) (hm : r1.ExcludedMonths = r2.ExcludedMonths)
    (hd : r1.ExcludedDates = r2.ExcludedDates) (hy : r1.ExcludedDays = r2.ExcludedDays) :
    getTollCustomFee t v r1 = getTollCustomFee t v r2 := by
  by_cases hfree : IsTollFreeDate t = true
  · simp [getTollCustomFee, hfree]
  · have hw : ¬ (t.Weekday = 6 ∨ t.Weekday = 0) := fun hw =>
      hfree ((IsTollFreeDate_iff t).2 (Or.inl hw))
    have h6 : ¬ t.Weekday = 6 := fun h => hw (Or.inl h)
    have h0 : ¬ t.Weekday = 0 := fun h => hw (Or.inr h)
    have h6b : (t.Weekday == 6) = false := by simpa using h6
    have h0b : (t.Weekday == 0) = false := by simpa using h0
    have hc : IsToolFreeDateWithCustomRules t r1 = IsToolFreeDateWithCustomRules t r2 := by
      simp only [IsToolFreeDateWithCustomRules, h6b, h0b, Bool.and_false, Bool.or_self,
        Bool.false_eq_true, if_false, hm, hd, hy]
    simp only [getTollCustomFee, hc, hp]

/-- C25: two custom rule sets that have the same bands and the same excluded months,
dates and days, as do any two that differ only in `TaxOnWeekend`, give the same
total for every vehicle and timestamp list; every Saturday and Sunday crossing
costs 0 in custom mode whatever `TaxOnWeekend` is. -/
theorem GetTax_ignores_TaxOnWeekend (vehicle : Option Vehicle) (dates : List Time)
    (r1 r2 : TaxRule)
    (hprices : r1.HourlyPrices = r2.HourlyPrices)
    (hmonths : r1.ExcludedMonths = r2.ExcludedMonths)
    (hdates : r1.ExcludedDates = r2.ExcludedDates)
    (hdays : r1.ExcludedDays = r2.ExcludedDays) :
    GetTax vehicle dates true r1 = GetTax vehicle dates true r2 ∧
    (∀ t : Time, t.Weekday = 6 ∨ t.Weekday = 0 → getTollCustomFee t vehicle r1 = 0) := by
  constructor
  · apply GetTax_congr
    intro d
    simp only [nextFee, if_true]
    exact getTollCustomFee_weekend_flag d vehicle r1 r2 hprices hmonths hdates hdays
  · intro t hw
    simp [getTollCustomFee, (IsTollFreeDate_iff t).2 (Or.inl hw)]

/-- Witness for C25: the rule set of the repository's test with `TaxOnWeekend` false
and true, for a car crossing on Saturday 2013-04-06 at 12:00 and on Monday
2013-04-08 at 12:00. -/
theorem GetTax_ignores_TaxOnWeekend_witness :
    (Date 2013 4 6 12 0 0 0 UTC).Weekday = 6 ∧
    GetTax (some (Vehicle.Car "ABC123"))
        [Date 2013 4 6 12 0 0 0 UTC, Date 2013 4 8 12 0 0 0 UTC] true
        (TaxRule.mk [HourlyPrice.mk 8 18 10] false [1, 2, 3] 60 [] [] 7) =
      GetTax (some (Vehicle.Car "ABC123"))
        [Date 2013 4 6 12 0 0 0 UTC, Date 2013 4 8 12 0 0 0 UTC] true
        (TaxRule.mk [HourlyPrice.mk 8 18 10] true [1, 2, 3] 60 [] [] 7) ∧
    GetTax (some (Vehicle.Car "ABC123"))
        [Date 2013 4 6 12 0 0 0 UTC, Date 2013 4 8 12 0 0 0 UTC] true
        (TaxRule.mk [HourlyPrice.mk 8 18 10] true [1, 2, 3] 60 [] [] 7) = 10 ∧
    getTollCustomFee (Date 2013 4 6 12 0 0 0 UTC) (some (Vehicle.Car "ABC123"))
      (TaxRule.mk [HourlyPrice.mk 8 18 10] true [1, 2, 3] 60 [] [] 7) = 0 :=
  ⟨by decide,
   (GetTax_ignores_TaxOnWeekend (some (Vehicle.Car "ABC123"))
      [Date 2013 4 6 12 0 0 0 UTC, Date 2013 4 8 12 0 0 0 UTC]
      (TaxRule.mk [HourlyPrice.mk 8 18 10] false [1, 2, 3] 60 [] [] 7)
      (TaxRule.mk [HourlyPrice.mk 8 18 10] true [1, 2, 3] 60 [] [] 7) rfl rfl rfl rfl).1,
   by decide,
   (GetTax_ignores_TaxOnWeekend (some (Vehicle.Car "ABC123"))
      [Date 2013 4 6 12 0 0 0 UTC, Date 2013 4 8 12 0 0 0 UTC]
      (TaxRule.mk [HourlyPrice.mk 8 18 10] true [1, 2, 3] 60 [] [] 7)
      (TaxRule.mk [HourlyPrice.mk 8 18 10] true [1, 2, 3] 60 [] [] 7) rfl rfl rfl rfl).2
      (Date 2013 4 6 12 0 0 0 UTC) (by decide)⟩

/-- Running the loop body a second time on the same crossing changes nothing. -/
theorem loopBody_idem (v : Option Vehicle) (c : Bool) (r : TaxRule) (st : LoopState)
    (d : Time) : loopBody v c r (loopBody v c r st d) d = loopBody v c r st d := by
  have hdd : minutesAtMost60 (d.Sub d) = true := minutesAtMost60_of_le d d (le_refl _) (by omega)
  by_cases hw : minutesAtMost60 (d.Sub st.intervalStart) = true
  · rw [loopBody_within v c r st d hw]
    by_cases hgt : nextFee v c r d > st.highestFee
    · rw [if_pos hgt]
      rw [loopBody_within v c r (LoopState.mk st.intervalStart st.totalFee (nextFee v c r d)) d hw]
      simp
    · rw [if_neg hgt, loopBody_within v c r st d hw, if_neg hgt]
  · rw [loopBody_new_window v c r st d hw]
    rw [loopBody_within v c r
      (LoopState.mk d (wrapInt (st.totalFee + st.highestFee)) (nextFee v c r d)) d hdd]
    simp

/-- Repeating a crossing next to itself does not change the fee computed after the
sort. -/
theorem aggregate_duplicate (v : Option Vehicle) (c : Bool) (r : TaxRule)
    (pre : List Time) (t : Time) (post : List Time) :
    aggregate v c r (pre ++ t :: t :: post) = aggregate v c r (pre ++ t :: post) := by
  cases pre with
  | nil =>
    simp only [List.nil_append, aggregate, List.foldl_cons, loopBody_idem]
  | cons a p =>
    simp only [List.cons_append, aggregate, List.foldl_cons, List.foldl_append, loopBody_idem]

theorem ascending_duplicate (pre : List Time) (t : Time) (post : List Time)
    (h : Ascending (pre ++ t :: post)) : Ascending (pre ++ t :: t :: post) := by
  unfold Ascending at h ⊢
  rw [List.pairwise_append] at h ⊢
  obtain ⟨h1, h2, h3⟩ := h
  refine ⟨h1, ?_, ?_⟩
  · rw [List.pairwise_cons]
    refine ⟨?_, h2⟩
    intro x hx
    rw [List.mem_cons] at hx
    rcases hx with rfl | hx
    · exact le_refl _
    · exact (List.pairwise_cons.1 h2).1 x hx
  · intro a ha b hb
    rw [List.mem_cons] at hb
    rcases hb with rfl | hb
    · exact h3 a ha b (List.mem_cons_self b post)
    · exact h3 a ha b hb

/-- C24: a timestamp that already occurs in the list can be appended without
changing the total, for every vehicle, mode and rule set. -/
theorem GetTax_duplicate (vehicle : Option Vehicle) (isCustom : Bool) (taxRule : TaxRule)
    (L : List Time) (t : Time) (ht : t ∈ L) :
    GetTax vehicle (L ++ [t]) isCustom taxRule = GetTax vehicle L isCustom taxRule := by
  have hmem : t ∈ sortDates L := (sortDates_perm L).symm.subset ht
  obtain ⟨pre, post, hsplit⟩ := List.append_of_mem hmem
  have hasc : Ascending (pre ++ t :: post) := hsplit ▸ sortDates_ascending L
  have hperm : (pre ++ t :: post).Perm L := hsplit ▸ sortDates_perm L
  have hperm2 : (pre ++ t :: t :: post).Perm (L ++ [t]) := by
    have h1 : (pre ++ t :: t :: post).Perm (t :: (pre ++ t :: post)) :=
      List.perm_middle
    have h2 : (t :: (pre ++ t :: post)).Perm (t :: L) := List.Perm.cons t hperm
    have h3 : (t :: L).Perm (L ++ [t]) := (List.perm_append_singleton t L).symm
    exact h1.trans (h2.trans h3)
  rw [GetTax_eq_aggregate vehicle isCustom taxRule (L ++ [t]) (pre ++ t :: t :: post)
      (ascending_duplicate pre t post hasc) hperm2,
    GetTax_eq_aggregate vehicle isCustom taxRule L (pre ++ t :: post) hasc hperm]
  exact aggregate_duplicate vehicle isCustom taxRule pre t post

/-- Witness for C24: a car on Tuesday 2013-02-05 crossing at 06:00 and 07:01 pays 26,
and still 26 when the crossing at 06:00 is listed twice. -/
theorem GetTax_duplicate_witness :
    GetTax (some (Vehicle.Car "ABC123"))
      ([Date 2013 2 5 6 0 0 0 UTC, Date 2013 2 5 7 1 0 0 UTC] ++ [Date 2013 2 5 6 0 0 0 UTC])
      false (TaxRule.mk [] false [] 0 [] [] 0) =
    GetTax (some (Vehicle.Car "ABC123"))
      [Date 2013 2 5 6 0 0 0 UTC, Date 2013 2 5 7 1 0 0 UTC]
      false (TaxRule.mk [] false [] 0 [] [] 0) ∧
    GetTax (some (Vehicle.Car "ABC123"))
      [Date 2013 2 5 6 0 0 0 UTC, Date 2013 2 5 7 1 0 0 UTC]
      false (TaxRule.mk [] false [] 0 [] [] 0) = 26 :=
  ⟨GetTax_duplicate (some (Vehicle.Car "ABC123")) false (TaxRule.mk [] false [] 0 [] [] 0)
      [Date 2013 2 5 6 0 0 0 UTC, Date 2013 2 5 7 1 0 0 UTC] (Date 2013 2 5 6 0 0 0 UTC)
      (by decide),
   by decide⟩

/-! ## The reference windowing definition and the cap in custom mode -/

/-- The program's window test and the specification's agree. -/
theorem minutesAtMost60_eq_specWithin (a d : Time) :
    minutesAtMost60 (d.Sub a) = specWithin a d := by
  by_cases h : minutesAtMost60 (d.Sub a) = true
  · have := minutesAtMost60_Sub d a h
    simp [specWithin, h, this]
  · have := not_minutesAtMost60_Sub d a h
    have h2 : ¬ d.nanos - a.nanos ≤ 3600000000000 := by omega
    simp only [Bool.not_eq_true] at h
    simp [specWithin, h, h2]

/-- Any fuel that is at least the length of the list gives the same windows. -/
theorem specWindowsFuel_enough :
    ∀ (n m : Nat) (l : List Time), l.length ≤ n → l.length ≤ m →
      specWindowsFuel n l = specWindowsFuel m l := by
  intro n
  induction n with
  | zero =>
    intro m l hn _
    have hl : l = [] := List.length_eq_zero.1 (Nat.le_zero.1 hn)
    subst hl
    cases m <;> rfl
  | succ n ih =>
    intro m l hn hm
    cases l with
    | nil => cases m <;> rfl
    | cons a rest =>
      cases m with
      | zero => simp at hm
      | succ m =>
        simp only [specWindowsFuel]
        have hlen : (rest.filter (fun d => !specWithin a d)).length ≤ rest.length :=
          List.length_filter_le _ _
        simp only [List.length_cons] at hn hm
        rw [ih m _ (by omega) (by omega)]

/-- The windows of a non-empty list: the first window and the windows of the rest. -/
theorem specWindows_cons (a : Time) (rest : List Time) :
    specWindows (a :: rest) =
      (a :: rest.filter (fun d => specWithin a d)) ::
        specWindows (rest.filter (fun d => !specWithin a d)) := by
  have hlen : (rest.filter (fun d => !specWithin a d)).length ≤ rest.length :=
    List.length_filter_le _ _
  simp only [specWindows, List.length_cons, specWindowsFuel]
  rw [specWindowsFuel_enough rest.length _ _ hlen (le_refl _)]

theorem foldl_max_ge (fee : Time → Int) (l : List Time) :
    ∀ h : Int, h ≤ l.foldl (fun m d => max m (fee d)) h := by
  induction l with
  | nil => intro h; exact le_refl _
  | cons a t ih =>
    intro h
    simp only [List.foldl_cons]
    exact le_trans (le_max_left h (fee a)) (ih _)

theorem specWindowMax_nonneg (fee : Time → Int) (hfee : ∀ d, 0 ≤ fee d) (w : List Time) :
    0 ≤ specWindowMax fee w := by
  cases w with
  | nil => exact le_refl _
  | cons a t => exact le_trans (hfee a) (foldl_max_ge fee t (fee a))

theorem specWindows_sum_nonneg (fee : Time → Int) (hfee : ∀ d, 0 ≤ fee d) :
    ∀ (n : Nat) (l : List Time), 0 ≤ ((specWindowsFuel n l).map (specWindowMax fee)).sum := by
  intro n
  induction n with
  | zero => intro l; simp [specWindowsFuel]
  | succ n ih =>
    intro l
    cases l with
    | nil => simp [specWindowsFuel]
    | cons a rest =>
      simp only [specWindowsFuel, List.map_cons, List.sum_cons]
      have h1 := specWindowMax_nonneg fee hfee (a :: rest.filter (fun d => specWithin a d))
      have h2 := ih (rest.filter (fun d => !specWithin a d))
      omega

theorem specRest_nil (fee : Time → Int) (a : Time) (h : Int) : specRest fee a h [] = h := by
  simp [specRest, specWindows, specWindowsFuel]

theorem specRest_within (fee : Time → Int) (a : Time) (h : Int) (d : Time) (l : List Time)
    (hW : specWithin a d = true) :
    specRest fee a h (d :: l) = specRest fee a (max h (fee d)) l := by
  simp only [specRest, List.filter_cons, hW, if_true, List.foldl_cons, Bool.not_true,
    Bool.false_eq_true, if_false]

theorem specRest_outside (fee : Time → Int) (a : Time) (h : Int) (d : Time) (l : List Time)
    (hasc : Ascending (d :: l)) (hW : specWithin a d = false) :
    specRest fee a h (d :: l) = h + specRest fee d (fee d) l := by
  unfold Ascending at hasc
  rw [List.pairwise_cons] at hasc
  have hd : ¬ d.nanos - a.nanos ≤ 3600000000000 := by
    simpa [specWithin] using hW
  have hall : ∀ x ∈ d :: l, specWithin a x = false := by
    intro x hx
    rw [List.mem_cons] at hx
    rcases hx with rfl | hx
    · exact hW
    · have := hasc.1 x hx
      have hx2 : ¬ x.nanos - a.nanos ≤ 3600000000000 := by omega
      simpa [specWithin] using hx2
  have hin : (d :: l).filter (fun x => specWithin a x) = [] := by
    rw [List.filter_eq_nil_iff]
    intro x hx
    simp [hall x hx]
  have hout : (d :: l).filter (fun x => !specWithin a x) = d :: l := by
    rw [List.filter_eq_self]
    intro x hx
    simp [hall x hx]
  simp only [specRest, hin, hout, List.foldl_nil, specWindows_cons, List.map_cons,
    List.sum_cons, specWindowMax]

theorem specRest_ge (fee : Time → Int) (hfee : ∀ d, 0 ≤ fee d) (a : Time) (h : Int)
    (l : List Time) : h ≤ specRest fee a h l := by
  have h1 := foldl_max_ge fee (l.filter (fun d => specWithin a d)) h
  have h2 := specWindows_sum_nonneg fee hfee
    (l.filter (fun d => !specWithin a d)).length (l.filter (fun d => !specWithin a d))
  unfold specRest specWindows
  omega

/-- The loop of `GetTax` on an ascending list computes what the specification adds,
provided the fees are not negative and the 64-bit total does not overflow: either
because the specification's sum is below 2^63, or because every fee is at most
some `B ≤ 1799`. -/
theorem loop_eq_specRest (v : Option Vehicle) (c : Bool) (r : TaxRule)
    (hfee0 : ∀ d, 0 ≤ nextFee v c r d) :
    ∀ (l : List Time) (st : LoopState), Ascending l → 0 ≤ st.totalFee → 0 ≤ st.highestFee →
      (st.totalFee + specRest (nextFee v c r) st.intervalStart st.highestFee l
          < 9223372036854775808 ∨
        ∃ (B : Int) (first : Time), B ≤ 1799 ∧ (∀ d, nextFee v c r d ≤ B) ∧
          FeeInv B first st) →
      wrapInt ((l.foldl (loopBody v c r) st).totalFee +
          (l.foldl (loopBody v c r) st).highestFee) =
        st.totalFee + specRest (nextFee v c r) st.intervalStart st.highestFee l := by
  intro l
  induction l with
  | nil =>
    intro st _ hT hh hsafe
    rw [specRest_nil]
    simp only [List.foldl_nil]
    rcases hsafe with hsafe | ⟨B, first, hB, _, hinv⟩
    · rw [specRest_nil] at hsafe
      exact wrapInt_of_range _ (by omega) hsafe
    · have hov := FeeInv_no_overflow B hB first st hinv
      exact wrapInt_of_range _ (by omega) hov.2
  | cons d l ih =>
    intro st hasc hT hh hsafe
    have hasc2 : Ascending l := by
      unfold Ascending at hasc ⊢
      exact (List.pairwise_cons.1 hasc).2
    simp only [List.foldl_cons]
    by_cases hW : specWithin st.intervalStart d = true
    · have hW2 : minutesAtMost60 (d.Sub st.intervalStart) = true := by
        rw [minutesAtMost60_eq_specWithin]; exact hW
      have hstep : (loopBody v c r st d).intervalStart = st.intervalStart ∧
          (loopBody v c r st d).totalFee = st.totalFee ∧
          (loopBody v c r st d).highestFee = max st.highestFee (nextFee v c r d) := by
        rw [loopBody_within v c r st d hW2]
        split_ifs with hgt
        · refine ⟨rfl, rfl, ?_⟩
          show nextFee v c r d = max st.highestFee (nextFee v c r d)
          omega
        · refine ⟨rfl, rfl, ?_⟩
          omega
      obtain ⟨s1, s2, s3⟩ := hstep
      rw [specRest_within _ _ _ _ _ hW]
      have key := ih (loopBody v c r st d) hasc2 (by rw [s2]; exact hT)
        (by rw [s3]; exact le_trans hh (le_max_left _ _))
      rw [s1, s2, s3] at key
      apply key
      rcases hsafe with hsafe | ⟨B, first, hB, hfeeB, hinv⟩
      · left
        rw [specRest_within _ _ _ _ _ hW] at hsafe
        exact hsafe
      · right
        exact ⟨B, first, hB, hfeeB,
          loopBody_FeeInv v c r B hB (fun x => ⟨hfee0 x, hfeeB x⟩) first st d hinv⟩
    · have hW3 : specWithin st.intervalStart d = false := by simpa using hW
      have hW2 : ¬ minutesAtMost60 (d.Sub st.intervalStart) = true := by
        rw [minutesAtMost60_eq_specWithin]; exact hW
      have hrest := specRest_outside (nextFee v c r) st.intervalStart st.highestFee d l hasc hW3
      have hge := specRest_ge (nextFee v c r) hfee0 d (nextFee v c r d) l
      have hfd := hfee0 d
      have hnowrap : wrapInt (st.totalFee + st.highestFee) = st.totalFee + st.highestFee := by
        rcases hsafe with hsafe | ⟨B, first, hB, _, hinv⟩
        · exact wrapInt_of_range _ (by omega) (by omega)
        · have hov := FeeInv_no_overflow B hB first st hinv
          exact wrapInt_of_range _ (by omega) hov.2
      have hbody : loopBody v c r st d =
          LoopState.mk d (st.totalFee + st.highestFee) (nextFee v c r d) := by
        rw [loopBody_new_window v c r st d hW2, hnowrap]
      have key := ih (LoopState.mk d (st.totalFee + st.highestFee) (nextFee v c r d)) hasc2
        (by show 0 ≤ st.totalFee + st.highestFee; omega) hfd
      rw [hbody, hrest]
      have key2 := key (by
        rcases hsafe with hsafe | ⟨B, first, hB, hfeeB, hinv⟩
        · left
          show st.totalFee + st.highestFee + specRest (nextFee v c r) d (nextFee v c r d) l
            < 9223372036854775808
          omega
        · right
          refine ⟨B, first, hB, hfeeB, ?_⟩
          have := loopBody_FeeInv v c r B hB (fun x => ⟨hfee0 x, hfeeB x⟩) first st d hinv
          rwa [hbody] at this)
      rw [key2]
      show st.totalFee + st.highestFee + specRest (nextFee v c r) d (nextFee v c r d) l = _
      omega

/-- The windows of the specification cover the list: every timestamp lies in exactly
one window. -/
theorem specWindows_join_perm :
    ∀ (n : Nat) (l : List Time), l.length ≤ n → (specWindows l).flatten.Perm l := by
  intro n
  induction n with
  | zero =>
    intro l hl
    have : l = [] := List.length_eq_zero.1 (Nat.le_zero.1 hl)
    subst this
    simp [specWindows, specWindowsFuel]
  | succ n ih =>
    intro l hl
    cases l with
    | nil => simp [specWindows, specWindowsFuel]
    | cons a rest =>
      have hlen : (rest.filter (fun d => !specWithin a d)).length ≤ rest.length :=
        List.length_filter_le _ _
      simp only [List.length_cons] at hl
      have hrec := ih (rest.filter (fun d => !specWithin a d)) (by omega)
      rw [specWindows_cons, List.flatten_cons, List.cons_append]
      refine List.Perm.cons a ?_
      exact (List.Perm.append_left _ hrec).trans
        (List.filter_append_perm (fun d => specWithin a d) rest)

theorem firstBandRate_nonneg (hour : Int) (bands : List HourlyPrice)
    (h : ∀ b ∈ bands, 0 ≤ b.Rate) : 0 ≤ firstBandRate hour bands := by
  induction bands with
  | nil => simp [firstBandRate]
  | cons b rest ih =>
    simp only [firstBandRate]
    split_ifs
    · exact h b (List.mem_cons_self b rest)
    · exact ih (fun x hx => h x (List.mem_cons_of_mem b hx))

theorem getTollCustomFee_nonneg (t : Time) (v : Option Vehicle) (r : TaxRule)
    (h : ∀ b ∈ r.HourlyPrices, 0 ≤ b.Rate) : 0 ≤ getTollCustomFee t v r := by
  unfold getTollCustomFee
  split_ifs
  · exact le_refl _
  · exact firstBandRate_nonneg _ _ h

/-- On an ascending list the fee computed after the sort is the specification's
`min(60, sum of the window maxima)`, when no fee is negative and the 64-bit total
does not overflow. -/
theorem aggregate_eq_spec (v : Option Vehicle) (c : Bool) (r : TaxRule)
    (hfee0 : ∀ d, 0 ≤ nextFee v c r d) (s : List Time) (hasc : Ascending s)
    (hsafe : ((specWindows s).map (specWindowMax (nextFee v c r))).sum < 9223372036854775808 ∨
      ∃ B : Int, B ≤ 1799 ∧ ∀ d, nextFee v c r d ≤ B) :
    aggregate v c r s = min 60 ((specWindows s).map (specWindowMax (nextFee v c r))).sum := by
  cases s with
  | nil => simp [aggregate, specWindows, specWindowsFuel]
  | cons a t =>
    have haa : specWithin a a = true := by simp [specWithin]
    have hfa := hfee0 a
    have hrest : specRest (nextFee v c r) a 0 (a :: t) =
        ((specWindows (a :: t)).map (specWindowMax (nextFee v c r))).sum := by
      rw [specRest_within _ _ _ _ _ haa, max_eq_right hfa, specWindows_cons]
      simp only [specRest, List.map_cons, List.sum_cons, specWindowMax]
    have key := loop_eq_specRest v c r hfee0 (a :: t) (LoopState.mk a 0 0) hasc (le_refl _)
      (le_refl _)
    have key2 := key (by
      rcases hsafe with hsafe | ⟨B, hB, hfeeB⟩
      · left
        show (0 : Int) + specRest (nextFee v c r) a 0 (a :: t) < 9223372036854775808
        rw [hrest]; omega
      · right
        refine ⟨B, a, hB, hfeeB, le_refl _, le_trans hfa (hfeeB a), le_refl _, le_refl _, ?_⟩
        simp)
    have key3 : wrapInt ((List.foldl (loopBody v c r) (LoopState.mk a 0 0) (a :: t)).totalFee +
        (List.foldl (loopBody v c r) (LoopState.mk a 0 0) (a :: t)).highestFee) =
        ((specWindows (a :: t)).map (specWindowMax (nextFee v c r))).sum := by
      rw [key2, hrest]
      show (0 : Int) + _ = _
      omega
    simp only [aggregate, key3]
    split_ifs <;> omega

theorem GetTax_spec_of_safe (v : Option Vehicle) (c : Bool) (r : TaxRule) (dates : List Time)
    (hfee0 : ∀ d, 0 ≤ nextFee v c r d)
    (hsafe : specSum v dates c r < 9223372036854775808 ∨
      ∃ B : Int, B ≤ 1799 ∧ ∀ d, nextFee v c r d ≤ B) :
    GetTax v dates c r = specTotal v dates c r := by
  rw [GetTax_eq_aggregate v c r dates (sortDates dates) (sortDates_ascending dates)
    (sortDates_perm dates)]
  exact aggregate_eq_spec v c r hfee0 (sortDates dates) (sortDates_ascending dates) hsafe

/-- C22 (counterexample): in custom mode with one band 0–23 of the non-negative rate
2^62, a car crossing at 06:00, 08:00 and 10:00 on Tuesday 2013-02-05 has three
windows; the reference total is `min(60, 3 · 2^62) = 60`, and `GetTax` returns
-2^62 because the 64-bit sum overflows. -/
theorem custom_total_overflow_differs_from_spec :
    (∀ b ∈ (TaxRule.mk [HourlyPrice.mk 0 23 4611686018427387904] false [] 60 [] []
      0).HourlyPrices, 0 ≤ b.Rate) ∧
    specSum (some (Vehicle.Car "ABC123"))
      [Date 2013 2 5 6 0 0 0 UTC, Date 2013 2 5 8 0 0 0 UTC, Date 2013 2 5 10 0 0 0 UTC] true
      (TaxRule.mk [HourlyPrice.mk 0 23 4611686018427387904] false [] 60 [] [] 0)
      = 13835058055282163712 ∧
    specTotal (some (Vehicle.Car "ABC123"))
      [Date 2013 2 5 6 0 0 0 UTC, Date 2013 2 5 8 0 0 0 UTC, Date 2013 2 5 10 0 0 0 UTC] true
      (TaxRule.mk [HourlyPrice.mk 0 23 4611686018427387904] false [] 60 [] [] 0) = 60 ∧
    GetTax (some (Vehicle.Car "ABC123"))
      [Date 2013 2 5 6 0 0 0 UTC, Date 2013 2 5 8 0 0 0 UTC, Date 2013 2 5 10 0 0 0 UTC] true
      (TaxRule.mk [HourlyPrice.mk 0 23 4611686018427387904] false [] 60 [] [] 0)
      = -4611686018427387904 ∧
    GetTax (some (Vehicle.Car "ABC123"))
      [Date 2013 2 5 6 0 0 0 UTC, Date 2013 2 5 8 0 0 0 UTC, Date 2013 2 5 10 0 0 0 UTC] true
      (TaxRule.mk [HourlyPrice.mk 0 23 4611686018427387904] false [] 60 [] [] 0) ≠
    specTotal (some (Vehicle.Car "ABC123"))
      [Date 2013 2 5 6 0 0 0 UTC, Date 2013 2 5 8 0 0 0 UTC, Date 2013 2 5 10 0 0 0 UTC] true
      (TaxRule.mk [HourlyPrice.mk 0 23 4611686018427387904] false [] 60 [] [] 0) := by
  decide

/-- C22 (amended): `GetTax` equals the reference total `min(60, sum over the greedy
windows of the maximum stand-alone fee)` for every vehicle and timestamp list in
built-in mode, and in custom mode when every band rate is non-negative and the sum
of the window maxima is below 2^63, which is the case when every rate is at most
1799. -/
theorem GetTax_refines_spec (vehicle : Option Vehicle) (dates : List Time)
    (taxRule : TaxRule) :
    GetTax vehicle dates false taxRule = specTotal vehicle dates false taxRule ∧
    ((∀ b ∈ taxRule.HourlyPrices, 0 ≤ b.Rate) →
      specSum vehicle dates true taxRule < 9223372036854775808 →
      GetTax vehicle dates true taxRule = specTotal vehicle dates true taxRule) ∧
    ((∀ b ∈ taxRule.HourlyPrices, 0 ≤ b.Rate ∧ b.Rate ≤ 1799) →
      GetTax vehicle dates true taxRule = specTotal vehicle dates true taxRule) := by
  refine ⟨?_, ?_, ?_⟩
  · apply GetTax_spec_of_safe
    · intro d
      simpa [nextFee] using (getTollFee_bounds d vehicle).1
    · right
      refine ⟨18, by omega, ?_⟩
      intro d
      simpa [nextFee] using (getTollFee_bounds d vehicle).2
  · intro hrates hsum
    apply GetTax_spec_of_safe
    · intro d
      simpa [nextFee] using getTollCustomFee_nonneg d vehicle taxRule hrates
    · exact Or.inl hsum
  · intro hrates
    apply GetTax_spec_of_safe
    · intro d
      simpa [nextFee] using
        (getTollCustomFee_bounds 1799 (by omega) d vehicle taxRule hrates).1
    · right
      refine ⟨1799, le_refl _, ?_⟩
      intro d
      simpa [nextFee] using
        (getTollCustomFee_bounds 1799 (by omega) d vehicle taxRule hrates).2

/-- Witness for C22 (amended): a car on Tuesday 2013-02-05 crossing at 06:25, 07:20,
07:35, 08:30 and 06:10 has the windows {06:10, 06:25}, {07:20, 07:35}, {08:30} and
pays 8 + 18 + 8 = 34 in built-in mode; under the custom rule set of the
repository's test (one band 8–18 of rate 10) crossings at 09:00 and 11:00 on
2013-04-05 pay 20. -/
theorem GetTax_refines_spec_witness :
    specTotal (some (Vehicle.Car "ABC123"))
      [Date 2013 2 5 6 25 0 0 UTC, Date 2013 2 5 7 20 0 0 UTC, Date 2013 2 5 7 35 0 0 UTC,
        Date 2013 2 5 8 30 0 0 UTC, Date 2013 2 5 6 10 0 0 UTC] false
      (TaxRule.mk [] false [] 0 [] [] 0) = 34 ∧
    GetTax (some (Vehicle.Car "ABC123"))
      [Date 2013 2 5 6 25 0 0 UTC, Date 2013 2 5 7 20 0 0 UTC, Date 2013 2 5 7 35 0 0 UTC,
        Date 2013 2 5 8 30 0 0 UTC, Date 2013 2 5 6 10 0 0 UTC] false
      (TaxRule.mk [] false [] 0 [] [] 0) =
    specTotal (some (Vehicle.Car "ABC123"))
      [Date 2013 2 5 6 25 0 0 UTC, Date 2013 2 5 7 20 0 0 UTC, Date 2013 2 5 7 35 0 0 UTC,
        Date 2013 2 5 8 30 0 0 UTC, Date 2013 2 5 6 10 0 0 UTC] false
      (TaxRule.mk [] false [] 0 [] [] 0) ∧
    specTotal (some (Vehicle.Car "ABC123"))
      [Date 2013 4 5 9 0 0 0 UTC, Date 2013 4 5 11 0 0 0 UTC] true
      (TaxRule.mk [HourlyPrice.mk 8 18 10] false [1, 2, 3] 60 [] [] 7) = 20 ∧
    GetTax (some (Vehicle.Car "ABC123"))
      [Date 2013 4 5 9 0 0 0 UTC, Date 2013 4 5 11 0 0 0 UTC] true
      (TaxRule.mk [HourlyPrice.mk 8 18 10] false [1, 2, 3] 60 [] [] 7) =
    specTotal (some (Vehicle.Car "ABC123"))
      [Date 2013 4 5 9 0 0 0 UTC, Date 2013 4 5 11 0 0 0 UTC] true
      (TaxRule.mk [HourlyPrice.mk 8 18 10] false [1, 2, 3] 60 [] [] 7) ∧
    GetTax (some (Vehicle.Car "ABC123"))
      [Date 2013 4 5 9 0 0 0 UTC, Date 2013 4 5 11 0 0 0 UTC] true
      (TaxRule.mk [HourlyPrice.mk 8 18 10] false [1, 2, 3] 60 [] [] 7) =
    specTotal (some (Vehicle.Car "ABC123"))
      [Date 2013 4 5 9 0 0 0 UTC, Date 2013 4 5 11 0 0 0 UTC] true
      (TaxRule.mk [HourlyPrice.mk 8 18 10] false [1, 2, 3] 60 [] [] 7) :=
  ⟨by decide,
   (GetTax_refines_spec (some (Vehicle.Car "ABC123"))
      [Date 2013 2 5 6 25 0 0 UTC, Date 2013 2 5 7 20 0 0 UTC, Date 2013 2 5 7 35 0 0 UTC,
        Date 2013 2 5 8 30 0 0 UTC, Date 2013 2 5 6 10 0 0 UTC]
      (TaxRule.mk [] false [] 0 [] [] 0)).1,
   by decide,
   (GetTax_refines_spec (some (Vehicle.Car "ABC123"))
      [Date 2013 4 5 9 0 0 0 UTC, Date 2013 4 5 11 0 0 0 UTC]
      (TaxRule.mk [HourlyPrice.mk 8 18 10] false [1, 2, 3] 60 [] [] 7)).2.1
      (by decide) (by decide),
   (GetTax_refines_spec (some (Vehicle.Car "ABC123"))
      [Date 2013 4 5 9 0 0 0 UTC, Date 2013 4 5 11 0 0 0 UTC]
      (TaxRule.mk [HourlyPrice.mk 8 18 10] false [1, 2, 3] 60 [] [] 7)).2.2 (by decide)⟩

/-- C26 (counterexample): in custom mode with one band 0–23 of the non-negative rate
2^62, a car crossing at 06:00, 08:00 and 10:00 on Tuesday 2013-02-05 gets the total
-2^62, which is not between 0 and 60. -/
theorem custom_total_negative_on_overflow :
    (∀ b ∈ (TaxRule.mk [HourlyPrice.mk 0 23 4611686018427387904] false [] 60 [] []
      0).HourlyPrices, 0 ≤ b.Rate) ∧
    GetTax (some (Vehicle.Car "ABC123"))
      [Date 2013 2 5 6 0 0 0 UTC, Date 2013 2 5 8 0 0 0 UTC, Date 2013 2 5 10 0 0 0 UTC] true
      (TaxRule.mk [HourlyPrice.mk 0 23 4611686018427387904] false [] 60 [] [] 0)
      = -4611686018427387904 ∧
    ¬ (0 ≤ GetTax (some (Vehicle.Car "ABC123"))
        [Date 2013 2 5 6 0 0 0 UTC, Date 2013 2 5 8 0 0 0 UTC, Date 2013 2 5 10 0 0 0 UTC] true
        (TaxRule.mk [HourlyPrice.mk 0 23 4611686018427387904] false [] 60 [] [] 0) ∧
      GetTax (some (Vehicle.Car "ABC123"))
        [Date 2013 2 5 6 0 0 0 UTC, Date 2013 2 5 8 0 0 0 UTC, Date 2013 2 5 10 0 0 0 UTC] true
        (TaxRule.mk [HourlyPrice.mk 0 23 4611686018427387904] false [] 60 [] [] 0) ≤ 60) := by
  decide

/-- C26 (amended): in custom mode the total is at most 60 for every rule set and does
not depend on `MaxTaxedFee` or `DefaultHourlyPrice`; it is not negative when the
band rates are all non-negative and the sum of the window maxima is below 2^63,
which is the case when every rate is at most 1799. -/
theorem GetTax_custom_cap (vehicle : Option Vehicle) (dates : List Time)
    (taxRule : TaxRule) :
    GetTax vehicle dates true taxRule ≤ 60 ∧
    (∀ maxTaxedFee defaultHourlyPrice : Int,
      GetTax vehicle dates true
        (TaxRule.mk taxRule.HourlyPrices taxRule.TaxOnWeekend taxRule.ExcludedMonths
          maxTaxedFee taxRule.ExcludedDates taxRule.ExcludedDays defaultHourlyPrice) =
      GetTax vehicle dates true taxRule) ∧
    ((∀ b ∈ taxRule.HourlyPrices, 0 ≤ b.Rate) →
      specSum vehicle dates true taxRule < 9223372036854775808 →
      0 ≤ GetTax vehicle dates true taxRule) ∧
    ((∀ b ∈ taxRule.HourlyPrices, 0 ≤ b.Rate ∧ b.Rate ≤ 1799) →
      0 ≤ GetTax vehicle dates true taxRule) := by
  refine ⟨?_, ?_, ?_, ?_⟩
  · rw [GetTax_eq_aggregate vehicle true taxRule dates (sortDates dates)
      (sortDates_ascending dates) (sortDates_perm dates)]
    exact aggregate_le_60 vehicle true taxRule _
  · intro m p
    apply GetTax_congr
    intro d
    rfl
  · intro hrates hsum
    have hfee0 : ∀ d, 0 ≤ nextFee vehicle true taxRule d := by
      intro d
      simpa [nextFee] using getTollCustomFee_nonneg d vehicle taxRule hrates
    rw [GetTax_spec_of_safe vehicle true taxRule dates hfee0 (Or.inl hsum)]
    have hnn := specWindows_sum_nonneg (nextFee vehicle true taxRule) hfee0
      (sortDates dates).length (sortDates dates)
    unfold specTotal specSum specWindows
    omega
  · intro hrates
    rw [GetTax_eq_aggregate vehicle true taxRule dates (sortDates dates)
      (sortDates_ascending dates) (sortDates_perm dates)]
    refine aggregate_nonneg vehicle true taxRule 1799 (by omega) (by omega) ?_ _
    intro d
    simpa [nextFee] using getTollCustomFee_bounds 1799 (by omega) d vehicle taxRule hrates

/-- Witness for C26 (amended): the rule set of the repository's test, with band rate
10, for a car crossing at 09:00 and 11:00 on Friday 2013-04-05. -/
theorem GetTax_custom_cap_witness :
    0 ≤ GetTax (some (Vehicle.Car "ABC123"))
      [Date 2013 4 5 9 0 0 0 UTC, Date 2013 4 5 11 0 0 0 UTC] true
      (TaxRule.mk [HourlyPrice.mk 8 18 10] false [1, 2, 3] 60 [] [] 7) ∧
    GetTax (some (Vehicle.Car "ABC123"))
      [Date 2013 4 5 9 0 0 0 UTC, Date 2013 4 5 11 0 0 0 UTC] true
      (TaxRule.mk [HourlyPrice.mk 8 18 10] false [1, 2, 3] 60 [] [] 7) ≤ 60 ∧
    GetTax (some (Vehicle.Car "ABC123"))
      [Date 2013 4 5 9 0 0 0 UTC, Date 2013 4 5 11 0 0 0 UTC] true
      (TaxRule.mk [HourlyPrice.mk 8 18 10] false [1, 2, 3] 5 [] [] 1000) =
    GetTax (some (Vehicle.Car "ABC123"))
      [Date 2013 4 5 9 0 0 0 UTC, Date 2013 4 5 11 0 0 0 UTC] true
      (TaxRule.mk [HourlyPrice.mk 8 18 10] false [1, 2, 3] 60 [] [] 7) ∧
    0 ≤ GetTax (some (Vehicle.Car "ABC123"))
      [Date 2013 4 5 9 0 0 0 UTC, Date 2013 4 5 11 0 0 0 UTC] true
      (TaxRule.mk [HourlyPrice.mk 8 18 10] false [1, 2, 3] 60 [] [] 7) :=
  ⟨(GetTax_custom_cap (some (Vehicle.Car "ABC123"))
      [Date 2013 4 5 9 0 0 0 UTC, Date 2013 4 5 11 0 0 0 UTC]
      (TaxRule.mk [HourlyPrice.mk 8 18 10] false [1, 2, 3] 60 [] [] 7)).2.2.1
      (by decide) (by decide),
   (GetTax_custom_cap (some (Vehicle.Car "ABC123"))
      [Date 2013 4 5 9 0 0 0 UTC, Date 2013 4 5 11 0 0 0 UTC]
      (TaxRule.mk [HourlyPrice.mk 8 18 10] false [1, 2, 3] 60 [] [] 7)).1,
   (GetTax_custom_cap (some (Vehicle.Car "ABC123"))
      [Date 2013 4 5 9 0 0 0 UTC, Date 2013 4 5 11 0 0 0 UTC]
      (TaxRule.mk [HourlyPrice.mk 8 18 10] false [1, 2, 3] 60 [] [] 7)).2.1 5 1000,
   (GetTax_custom_cap (some (Vehicle.Car "ABC123"))
      [Date 2013 4 5 9 0 0 0 UTC, Date 2013 4 5 11 0 0 0 UTC]
      (TaxRule.mk [HourlyPrice.mk 8 18 10] false [1, 2, 3] 60 [] [] 7)).2.2.2 (by decide)⟩

end CongestionTax
